import Mathlib

/-!
Verification of the aimo-app-amico core: the action parser of agent.rs and
the note document model of note.rs, embedded shallowly.  Strings are
modelled by Lean strings and character lists; whitespace trimming models
the source language trim (the character classes agree on ASCII).  The
external JSON library (serde_json) is modelled by an executable value type
and a fuel-indexed text parser; JSON numbers are modelled as integers,
object fields keep their textual order and duplicate keys resolve to the
last occurrence, as the library's map building does.
-/

/-- The backtick character, written by code so that no backtick token
appears outside strings. -/
def tick : Char := Char.ofNat 96

/-- The opening curly brace character. -/
def lbrace : Char := Char.ofNat 123

/-- The closing curly brace character. -/
def rbrace : Char := Char.ofNat 125

/-- The double quote character. -/
def dquote : Char := Char.ofNat 34

/-- The backslash character. -/
def bslash : Char := Char.ofNat 92

/-- The opening square bracket. -/
def lbrack : Char := '['

/-- The closing square bracket. -/
def rbrack : Char := ']'

/-- Trim whitespace from both ends of a character list; models trim on
strings in the source. -/
def listTrim (l : List Char) : List Char :=
  ((l.dropWhile Char.isWhitespace).reverse.dropWhile Char.isWhitespace).reverse

/-- Trim a string, models the source's trim on strings. -/
def strTrim (s : String) : String := String.mk (listTrim s.data)

/-- Skip leading JSON whitespace (space, tab, newline, carriage return). -/
def skipWs (l : List Char) : List Char := l.dropWhile Char.isWhitespace

/-- JSON values as produced by the external JSON library (models
serde_json Value; numbers restricted to integers). Object fields are kept
in textual order, duplicates allowed. -/
inductive Json where
  | null : Json
  | bool (b : Bool) : Json
  | num (n : Int) : Json
  | str (s : String) : Json
  | arr (elems : List Json) : Json
  | obj (fields : List (String × Json)) : Json

/-- Field lookup with the last occurrence of a key winning, as the JSON
library's map building (later inserts overwrite) makes observable. -/
def lookupLast (k : String) : List (String × Json) → Option Json
  | [] => none
  | (k', v) :: rest =>
    match lookupLast k rest with
    | some r => some r
    | none => if k' = k then some v else none

/-- Models Value get on a field name: defined on objects only. -/
def Json.getField : Json → String → Option Json
  | Json.obj fields, k => lookupLast k fields
  | _, _ => none

/-- Models Value as_str: the string payload when the value is a string. -/
def Json.asStr : Json → Option String
  | Json.str s => some s
  | _ => none

/-- Models integer deserialization into usize; the machine integer width
is abstracted away, only nonnegativity is modelled. -/
def Json.asUsize : Json → Option Nat
  | Json.num (Int.ofNat n) => some n
  | _ => none

/-- Models integer deserialization into u32; the machine integer width is
abstracted away, only nonnegativity is modelled. -/
def Json.asU32 : Json → Option Nat
  | Json.num (Int.ofNat n) => some n
  | _ => none

/-- Value of a hexadecimal digit. -/
def hexVal (c : Char) : Option Nat :=
  if '0' ≤ c ∧ c ≤ '9' then some (c.toNat - 48)
  else if 'a' ≤ c ∧ c ≤ 'f' then some (c.toNat - 87)
  else if 'A' ≤ c ∧ c ≤ 'F' then some (c.toNat - 70)
  else none

/-- Simple string escape characters of JSON. -/
def escChar (e : Char) : Option Char :=
  if e = dquote then some dquote
  else if e = bslash then some bslash
  else if e = '/' then some '/'
  else if e = 'b' then some (Char.ofNat 8)
  else if e = 'f' then some (Char.ofNat 12)
  else if e = 'n' then some '\n'
  else if e = 'r' then some '\r'
  else if e = 't' then some '\t'
  else none

/-- Consume an expected literal character sequence. -/
def stripLit : List Char → List Char → Option (List Char)
  | [], l => some l
  | c :: cs, x :: xs => if x = c then stripLit cs xs else none
  | _ :: _, [] => none

/-- Parse a digit run into an integer valued JSON number; a fraction or
exponent is outside the integer model and is refused. -/
def parseDigits (neg : Bool) (l : List Char) : Option (Json × List Char) :=
  let ds := l.takeWhile Char.isDigit
  let r := l.dropWhile Char.isDigit
  if ds.isEmpty then none
  else
    let n : Nat := ds.foldl (fun acc d => acc * 10 + (d.toNat - 48)) 0
    let v : Int := if neg then -(n : Int) else (n : Int)
    match r with
    | c2 :: _ => if c2 = '.' ∨ c2 = 'e' ∨ c2 = 'E' then none else some (Json.num v, r)
    | [] => some (Json.num v, r)

/-- Parse a JSON number with an optional leading minus sign. -/
def parseNumFrom (l : List Char) : Option (Json × List Char) :=
  match l with
  | [] => none
  | c :: rest =>
    if c = '-' then parseDigits true rest else parseDigits false (c :: rest)

mutual

/-- Fuel-indexed JSON text parser, models the external library's reader:
parse one value, returning it with the unconsumed remainder. -/
def parseValue : Nat → List Char → Option (Json × List Char)
  | 0, _ => none
  | fuel+1, l =>
    match skipWs l with
    | [] => none
    | c :: rest =>
      if c = lbrace then
        match parseObjBody fuel rest with
        | some (fs, r) => some (Json.obj fs, r)
        | none => none
      else if c = lbrack then
        match parseArrBody fuel rest with
        | some (xs, r) => some (Json.arr xs, r)
        | none => none
      else if c = dquote then
        match parseStrBody fuel rest with
        | some (cs, r) => some (Json.str (String.mk cs), r)
        | none => none
      else if c = 't' then
        match stripLit ['r', 'u', 'e'] rest with
        | some r => some (Json.bool true, r)
        | none => none
      else if c = 'f' then
        match stripLit ['a', 'l', 's', 'e'] rest with
        | some r => some (Json.bool false, r)
        | none => none
      else if c = 'n' then
        match stripLit ['u', 'l', 'l'] rest with
        | some r => some (Json.null, r)
        | none => none
      else parseNumFrom (c :: rest)

/-- Object body after the opening brace: empty object or members. -/
def parseObjBody : Nat → List Char → Option (List (String × Json) × List Char)
  | 0, _ => none
  | fuel+1, l =>
    match skipWs l with
    | [] => none
    | c :: rest =>
      if c = rbrace then some ([], rest)
      else parseObjMore fuel (c :: rest)

/-- One or more object members separated by commas. -/
def parseObjMore : Nat → List Char → Option (List (String × Json) × List Char)
  | 0, _ => none
  | fuel+1, l =>
    match skipWs l with
    | [] => none
    | c :: rest =>
      if c = dquote then
        match parseStrBody fuel rest with
        | some (kcs, r1) =>
          match skipWs r1 with
          | c2 :: r2 =>
            if c2 = ':' then
              match parseValue fuel r2 with
              | some (v, r3) =>
                match skipWs r3 with
                | c3 :: r4 =>
                  if c3 = ',' then
                    match parseObjMore fuel r4 with
                    | some (fs, r5) => some ((String.mk kcs, v) :: fs, r5)
                    | none => none
                  else if c3 = rbrace then some ([(String.mk kcs, v)], r4)
                  else none
                | [] => none
              | none => none
            else none
          | [] => none
        | none => none
      else none

/-- Array body after the opening bracket: empty array or elements. -/
def parseArrBody : Nat → List Char → Option (List Json × List Char)
  | 0, _ => none
  | fuel+1, l =>
    match skipWs l with
    | [] => none
    | c :: rest =>
      if c = rbrack then some ([], rest)
      else parseArrMore fuel (c :: rest)

/-- One or more array elements separated by commas. -/
def parseArrMore : Nat → List Char → Option (List Json × List Char)
  | 0, _ => none
  | fuel+1, l =>
    match parseValue fuel l with
    | some (v, r1) =>
      match skipWs r1 with
      | c2 :: r2 =>
        if c2 = ',' then
          match parseArrMore fuel r2 with
          | some (xs, r3) => some (v :: xs, r3)
          | none => none
        else if c2 = rbrack then some ([v], r2)
        else none
      | [] => none
    | none => none

/-- String body after the opening quote, producing the decoded characters
and the remainder after the closing quote. -/
def parseStrBody : Nat → List Char → Option (List Char × List Char)
  | 0, _ => none
  | fuel+1, l =>
    match l with
    | [] => none
    | c :: rest =>
      if c = dquote then some ([], rest)
      else if c = bslash then
        match rest with
        | e :: rest2 =>
          if e = 'u' then
            match rest2 with
            | h1 :: h2 :: h3 :: h4 :: rest3 =>
              match hexVal h1, hexVal h2, hexVal h3, hexVal h4 with
              | some a, some b, some c4, some d =>
                match parseStrBody fuel rest3 with
                | some (cs, r) => some (Char.ofNat (((a * 16 + b) * 16 + c4) * 16 + d) :: cs, r)
                | none => none
              | _, _, _, _ => none
            | _ => none
          else
            match escChar e with
            | some ec =>
              match parseStrBody fuel rest2 with
              | some (cs, r) => some (ec :: cs, r)
              | none => none
            | none => none
        | [] => none
      else if c.toNat < 32 then none
      else
        match parseStrBody fuel rest with
        | some (cs, r) => some (c :: cs, r)
        | none => none

end

/-- Models from_str of the external JSON library: one complete value with
only trailing whitespace allowed. -/
def Json.fromStr (s : String) : Option Json :=
  match parseValue (4 * s.data.length + 8) s.data with
  | some (j, rest) => if skipWs rest = [] then some j else none
  | none => none

/-- The action to reply to the chat (agent.rs Reply). -/
structure Reply where
  action : String
  content : String
deriving DecidableEq

/-- The action to insert a new node (agent.rs InsertNode). -/
structure InsertNode where
  action : String
  insert_after : Nat
  node_type : String
  content : String
deriving DecidableEq

/-- The action to modify a node (agent.rs ModifyNode). -/
structure ModifyNode where
  action : String
  id : Nat
  node_type : String
  content : String
deriving DecidableEq

/-- The action for the agent (agent.rs ChatAction). -/
inductive ChatAction where
  | reply (r : Reply) : ChatAction
  | insertNode (a : InsertNode) : ChatAction
  | modifyNode (a : ModifyNode) : ChatAction
deriving DecidableEq

/-- The error cases of try_from_reply, named as the specification's error
taxonomy names them: a reply that claims to be JSON but fails to parse, a
named action whose required fields are missing or mistyped, and an
explicit but unknown action value (carried for diagnostics). -/
inductive ActionError where
  | malformedActionJson : ActionError
  | malformedActionShape : ActionError
  | unsupportedActionType (action : Json) : ActionError

/-- Models the From String conversion for Reply: the action discriminator
is set to the literal string of the reply action. -/
def Reply.fromContent (content : String) : Reply :=
  { action := "reply", content := content }

/-- Models serde deserialization of Reply from a JSON value: both fields
required, both strings, unknown fields ignored. -/
def Reply.fromJson (j : Json) : Option Reply :=
  match j.getField "action", j.getField "content" with
  | some (Json.str a), some (Json.str c) => some { action := a, content := c }
  | _, _ => none

/-- Models serde deserialization of InsertNode from a JSON value. -/
def InsertNode.fromJson (j : Json) : Option InsertNode :=
  match j.getField "action", j.getField "insert_after", j.getField "node_type", j.getField "content" with
  | some (Json.str a), some ia, some (Json.str nt), some (Json.str c) =>
    match ia.asUsize with
    | some n => some { action := a, insert_after := n, node_type := nt, content := c }
    | none => none
  | _, _, _, _ => none

/-- Models serde deserialization of ModifyNode from a JSON value. -/
def ModifyNode.fromJson (j : Json) : Option ModifyNode :=
  match j.getField "action", j.getField "id", j.getField "node_type", j.getField "content" with
  | some (Json.str a), some i, some (Json.str nt), some (Json.str c) =>
    match i.asUsize with
    | some n => some { action := a, id := n, node_type := nt, content := c }
    | none => none
  | _, _, _, _ => none

/-- Models trim_start_matches on the three-backtick pattern: repeatedly
remove the pattern while it is a prefix. -/
def trimStartTicks : List Char → List Char
  | a :: b :: c :: rest =>
    if a = tick ∧ b = tick ∧ c = tick then trimStartTicks rest
    else a :: b :: c :: rest
  | l => l

/-- Models trim_end_matches on the three-backtick pattern. -/
def trimEndTicks (l : List Char) : List Char :=
  (trimStartTicks l.reverse).reverse

/-- The preprocessing pipeline of try_from_reply: trim, strip leading
code-fence markers, strip trailing code-fence markers, trim again. -/
def processedChars (s : String) : List Char :=
  listTrim (trimEndTicks (trimStartTicks (listTrim s.data)))

/-- The preprocessed reply as a string. -/
def processedString (s : String) : String := String.mk (processedChars s)

/-- Whether the remaining text starts with an opening curly brace. -/
def startsWithLBrace : List Char → Bool
  | c :: _ => c = lbrace
  | [] => false

/-- Parse the reply to a chat action (agent.rs ChatAction try_from_reply):
trim, strip code fences, re-trim; if the result starts with a curly brace,
parse it as JSON (failure is a terminal error) and dispatch on the action
field, treating an absent field as a plain reply and an unknown explicit
action as a terminal error carrying the offending value; otherwise return
the text as a plain reply. -/
def ChatAction.try_from_reply (reply : String) : Except ActionError ChatAction :=
  let r := processedChars reply
  if startsWithLBrace r then
    match Json.fromStr (String.mk r) with
    | none => Except.error ActionError.malformedActionJson
    | some parsedJson =>
      match parsedJson.getField "action" with
      | some actionType =>
        match actionType.asStr with
        | some "insert_node" =>
          match InsertNode.fromJson parsedJson with
          | some a => Except.ok (ChatAction.insertNode a)
          | none => Except.error ActionError.malformedActionShape
        | some "modify_node" =>
          match ModifyNode.fromJson parsedJson with
          | some a => Except.ok (ChatAction.modifyNode a)
          | none => Except.error ActionError.malformedActionShape
        | some "reply" =>
          match Reply.fromJson parsedJson with
          | some a => Except.ok (ChatAction.reply a)
          | none => Except.error ActionError.malformedActionShape
        | _ => Except.error (ActionError.unsupportedActionType actionType)
      | none => Except.ok (ChatAction.reply (Reply.fromContent (String.mk r)))
  else Except.ok (ChatAction.reply (Reply.fromContent (String.mk r)))

/-- Whether a character list starts with three backticks. -/
def startsTicks : List Char → Bool
  | a :: b :: c :: _ => a = tick && b = tick && c = tick
  | _ => false

/-- Whether a character list ends with three backticks. -/
def endsTicks (l : List Char) : Bool := startsTicks l.reverse

/-- Text direction enumeration (note.rs TextDirection). -/
inductive TextDirection where
  | ltr : TextDirection
  | rtl : TextDirection
deriving DecidableEq

/-- Heading tag enumeration (note.rs HeadingTag). -/
inductive HeadingTag where
  | h1 : HeadingTag
  | h2 : HeadingTag
  | h3 : HeadingTag
  | h4 : HeadingTag
  | h5 : HeadingTag
  | h6 : HeadingTag
deriving DecidableEq

/-- List type enumeration (note.rs ListType). -/
inductive ListType where
  | bullet : ListType
  | number : ListType
deriving DecidableEq

/-- Message sender enumeration (note.rs MessageSender). -/
inductive MessageSender where
  | user : MessageSender
  | agent : MessageSender
  | system : MessageSender
deriving DecidableEq

/-- Base properties shared by all nodes (note.rs BaseNodeProperties):
a required version and three optional fields, the optionals annotated to
be skipped on serialization when absent. -/
structure BaseNodeProperties where
  version : Nat
  direction : Option TextDirection
  format : Option String
  indent : Option Nat
deriving DecidableEq

/-- Message within a chat session (note.rs ChatSessionMessage). -/
structure ChatSessionMessage where
  id : Nat
  sender : MessageSender
  content : String
  timestamp : String
deriving DecidableEq

/-- Main node enumeration covering all node types (note.rs LexicalNode
with the per-variant payload structs inlined as constructor fields, in
declared field order). -/
inductive LexicalNode where
  | text (text : String) (format : Nat) (detail : Nat) (mode : String)
      (style : String) (base : BaseNodeProperties) : LexicalNode
  | paragraph (children : List LexicalNode) (text_format : Nat)
      (text_style : String) (base : BaseNodeProperties) : LexicalNode
  | heading (tag : HeadingTag) (children : List LexicalNode)
      (base : BaseNodeProperties) : LexicalNode
  | list (list_type : ListType) (start : Option Nat)
      (children : List LexicalNode) (base : BaseNodeProperties) : LexicalNode
  | listitem (children : List LexicalNode) (base : BaseNodeProperties) : LexicalNode
  | quote (children : List LexicalNode) (base : BaseNodeProperties) : LexicalNode
  | code (text : Option String) (language : Option String)
      (children : Option (List LexicalNode)) (format : Nat)
      (base : BaseNodeProperties) : LexicalNode
  | link (url : String) (rel : Option String) (target : Option String)
      (children : List LexicalNode) (base : BaseNodeProperties) : LexicalNode
  | autolink (url : String) (children : List LexicalNode)
      (base : BaseNodeProperties) : LexicalNode
  | hashtag (text : String) (format : Nat) (base : BaseNodeProperties) : LexicalNode
  | table (children : List LexicalNode) (base : BaseNodeProperties) : LexicalNode
  | tablerow (children : List LexicalNode) (base : BaseNodeProperties) : LexicalNode
  | tablecell (children : List LexicalNode) (header_state : Nat) (col_span : Nat)
      (row_span : Nat) (base : BaseNodeProperties) : LexicalNode
  | pageBreak (base : BaseNodeProperties) : LexicalNode
  | aiEmbedding (content : String) (is_loading : Bool)
      (base : BaseNodeProperties) : LexicalNode
  | voiceInput (content : String) (base : BaseNodeProperties) : LexicalNode
  | chatMessage (sender : MessageSender) (content : String) (timestamp : String)
      (base : BaseNodeProperties) : LexicalNode
  | chatSession (session_id : String) (messages : List ChatSessionMessage)
      (base : BaseNodeProperties) : LexicalNode
  | mention (mention_name : String) (text : String) (format : Nat)
      (base : BaseNodeProperties) : LexicalNode

/-- Root node, the top level container (note.rs RootNode). -/
structure RootNode where
  node_type : String
  children : List LexicalNode
  base : BaseNodeProperties

/-- The top level Lexical state containing the root node. -/
structure LexicalState where
  root : RootNode

/-- Main Note structure (note.rs Note). -/
structure Note where
  note_id : Option String
  lexical_state : LexicalState

/-- Brief node for the agent to work on (note.rs BriefNode). -/
structure BriefNode where
  id : Nat
  node_type : String
  content : String
deriving DecidableEq

/-- The Display conversion of MessageSender used by the projection. -/
def MessageSender.to_string : MessageSender → String
  | MessageSender.user => "user"
  | MessageSender.agent => "agent"
  | MessageSender.system => "system"

mutual

/-- The per-node body of extract_text_from_nodes (note.rs): what one node
contributes to recursively extracted text. -/
def extractTextFromNode : LexicalNode → String
  | LexicalNode.text t _ _ _ _ _ => t
  | LexicalNode.paragraph children _ _ _ => extractTextFromNodes children
  | LexicalNode.heading _ children _ => extractTextFromNodes children
  | LexicalNode.list _ _ children _ => extractTextFromNodes children
  | LexicalNode.listitem children _ => "• " ++ extractTextFromNodes children
  | LexicalNode.quote children _ => extractTextFromNodes children
  | LexicalNode.code t _ ch _ _ =>
    (match t with
      | some s => s
      | none => "")
    ++ (match ch with
      | some cs => extractTextFromNodes cs
      | none => "")
  | LexicalNode.link _ _ _ children _ => extractTextFromNodes children
  | LexicalNode.autolink _ children _ => extractTextFromNodes children
  | LexicalNode.hashtag t _ _ => t
  | LexicalNode.table children _ => extractTextFromNodes children
  | LexicalNode.tablerow children _ => extractTextFromNodes children
  | LexicalNode.tablecell children _ _ _ _ => extractTextFromNodes children
  | LexicalNode.pageBreak _ => ""
  | LexicalNode.aiEmbedding c _ _ => c
  | LexicalNode.voiceInput c _ => c
  | LexicalNode.chatMessage _ c _ _ => c
  | LexicalNode.chatSession _ msgs _ => String.join (msgs.map (fun m => m.content))
  | LexicalNode.mention _ t _ _ => t

/-- Recursively extract text from nodes (note.rs extract_text_from_nodes):
the in-order concatenation of each node's contribution. -/
def extractTextFromNodes : List LexicalNode → String
  | [] => ""
  | n :: rest => extractTextFromNode n ++ extractTextFromNodes rest

end

/-- The match arms of collect_brief_from_node (note.rs): the node type tag
and content computed for one node. -/
def briefContent : LexicalNode → String × String
  | LexicalNode.text t _ _ _ _ _ => ("text", t)
  | LexicalNode.paragraph children _ _ _ => ("paragraph", extractTextFromNodes children)
  | LexicalNode.heading _ children _ => ("heading", extractTextFromNodes children)
  | LexicalNode.list _ _ children _ => ("list", extractTextFromNodes children)
  | LexicalNode.listitem children _ => ("listitem", extractTextFromNodes children)
  | LexicalNode.quote children _ => ("quote", extractTextFromNodes children)
  | LexicalNode.code t _ ch _ _ =>
    ("code",
      match t with
      | some s => s
      | none =>
        match ch with
        | some cs => extractTextFromNodes cs
        | none => "")
  | LexicalNode.link url _ _ children _ =>
    ("link", extractTextFromNodes children ++ " (" ++ url ++ ")")
  | LexicalNode.autolink url children _ =>
    ("autolink", extractTextFromNodes children ++ " (" ++ url ++ ")")
  | LexicalNode.hashtag t _ _ => ("hashtag", t)
  | LexicalNode.table children _ => ("table", extractTextFromNodes children)
  | LexicalNode.tablerow children _ => ("tablerow", extractTextFromNodes children)
  | LexicalNode.tablecell children _ _ _ _ => ("tablecell", extractTextFromNodes children)
  | LexicalNode.pageBreak _ => ("page-break", "---")
  | LexicalNode.aiEmbedding c _ _ => ("ai-embedding", c)
  | LexicalNode.voiceInput c _ => ("voice-input", c)
  | LexicalNode.chatMessage snd c _ _ =>
    ("chat-message", "[" ++ snd.to_string ++ "] " ++ c)
  | LexicalNode.chatSession _ msgs _ =>
    ("chat-session",
      String.intercalate "\n" (msgs.map (fun m => "[" ++ m.sender.to_string ++ "] " ++ m.content)))
  | LexicalNode.mention _ t _ _ => ("mention", t)

/-- Collect brief from a single node using its root index (note.rs
collect_brief_from_node): append an entry only when the content is not
whitespace-only. -/
def Note.collect_brief_from_node (node : LexicalNode) (briefs : List BriefNode)
    (root_index : Nat) : List BriefNode :=
  let tc := briefContent node
  if strTrim tc.2 ≠ "" then
    briefs ++ [{ id := root_index, node_type := tc.1, content := tc.2 }]
  else briefs

/-- Get the briefs for the note (note.rs get_brief): process each root
child with its index. -/
def Note.get_brief (note : Note) : List BriefNode :=
  note.lexical_state.root.children.enum.foldl
    (fun acc p => Note.collect_brief_from_node p.2 acc p.1) []

/-- Proof-side reformulation of the brief accumulation: the entries
contributed by a node list whose first element has root index k. -/
def briefsFrom : Nat → List LexicalNode → List BriefNode
  | _, [] => []
  | k, n :: rest =>
    (if strTrim (briefContent n).2 ≠ "" then
      [{ id := k, node_type := (briefContent n).1, content := (briefContent n).2 }]
    else []) ++ briefsFrom (k + 1) rest

/-- Serialization of TextDirection (serde rename ltr, rtl). -/
def TextDirection.toJson : TextDirection → Json
  | TextDirection.ltr => Json.str "ltr"
  | TextDirection.rtl => Json.str "rtl"

/-- Serialization of HeadingTag (serde rename_all lowercase). -/
def HeadingTag.toJson : HeadingTag → Json
  | HeadingTag.h1 => Json.str "h1"
  | HeadingTag.h2 => Json.str "h2"
  | HeadingTag.h3 => Json.str "h3"
  | HeadingTag.h4 => Json.str "h4"
  | HeadingTag.h5 => Json.str "h5"
  | HeadingTag.h6 => Json.str "h6"

/-- Serialization of ListType (serde rename_all lowercase). -/
def ListType.toJson : ListType → Json
  | ListType.bullet => Json.str "bullet"
  | ListType.number => Json.str "number"

/-- Serialization of MessageSender (serde rename_all lowercase). -/
def MessageSender.toJson (m : MessageSender) : Json := Json.str m.to_string

/-- A field present only when the optional value is present: models the
skip_serializing_if annotation on optional fields. -/
def optField (name : String) (v : Option Json) : List (String × Json) :=
  match v with
  | some j => [(name, j)]
  | none => []

/-- The serialized fields of the flattened BaseNodeProperties, in declared
order; version always, the three optionals skipped when absent. -/
def baseFields (b : BaseNodeProperties) : List (String × Json) :=
  [("version", Json.num b.version)]
  ++ optField "direction" (b.direction.map TextDirection.toJson)
  ++ optField "format" (b.format.map Json.str)
  ++ optField "indent" (b.indent.map (fun n => Json.num n))

/-- Serialization of a chat session message (all fields required, no
renames). -/
def ChatSessionMessage.toJson (m : ChatSessionMessage) : Json :=
  Json.obj [("id", Json.num m.id), ("sender", m.sender.toJson),
    ("content", Json.str m.content), ("timestamp", Json.str m.timestamp)]

mutual

/-- The serialized field list of one node: the internally tagged type
discriminator first, then the variant's declared fields in order, with
wire renames applied, then the flattened base fields. -/
def nodeToFields : LexicalNode → List (String × Json)
  | LexicalNode.text t fmt detail mode style b =>
    [("type", Json.str "text"), ("text", Json.str t), ("format", Json.num fmt),
     ("detail", Json.num detail), ("mode", Json.str mode), ("style", Json.str style)]
    ++ baseFields b
  | LexicalNode.paragraph children tf ts b =>
    [("type", Json.str "paragraph"), ("children", Json.arr (nodesToJson children)),
     ("textFormat", Json.num tf), ("textStyle", Json.str ts)] ++ baseFields b
  | LexicalNode.heading tag children b =>
    [("type", Json.str "heading"), ("tag", tag.toJson),
     ("children", Json.arr (nodesToJson children))] ++ baseFields b
  | LexicalNode.list lt st children b =>
    [("type", Json.str "list"), ("listType", lt.toJson),
     ("start", match st with
       | some n => Json.num n
       | none => Json.null),
     ("children", Json.arr (nodesToJson children))] ++ baseFields b
  | LexicalNode.listitem children b =>
    [("type", Json.str "listitem"), ("children", Json.arr (nodesToJson children))]
    ++ baseFields b
  | LexicalNode.quote children b =>
    [("type", Json.str "quote"), ("children", Json.arr (nodesToJson children))]
    ++ baseFields b
  | LexicalNode.code t lang ch fmt b =>
    [("type", Json.str "code")]
    ++ optField "text" (t.map Json.str)
    ++ optField "language" (lang.map Json.str)
    ++ (match ch with
      | some cs => [("children", Json.arr (nodesToJson cs))]
      | none => [])
    ++ [("format", Json.num fmt)] ++ baseFields b
  | LexicalNode.link url rel tgt children b =>
    [("type", Json.str "link"), ("url", Json.str url)]
    ++ optField "rel" (rel.map Json.str)
    ++ optField "target" (tgt.map Json.str)
    ++ [("children", Json.arr (nodesToJson children))] ++ baseFields b
  | LexicalNode.autolink url children b =>
    [("type", Json.str "autolink"), ("url", Json.str url),
     ("children", Json.arr (nodesToJson children))] ++ baseFields b
  | LexicalNode.hashtag t fmt b =>
    [("type", Json.str "hashtag"), ("text", Json.str t), ("format", Json.num fmt)]
    ++ baseFields b
  | LexicalNode.table children b =>
    [("type", Json.str "table"), ("children", Json.arr (nodesToJson children))]
    ++ baseFields b
  | LexicalNode.tablerow children b =>
    [("type", Json.str "tablerow"), ("children", Json.arr (nodesToJson children))]
    ++ baseFields b
  | LexicalNode.tablecell children hs cs rs b =>
    [("type", Json.str "tablecell"), ("children", Json.arr (nodesToJson children)),
     ("headerState", Json.num hs), ("colSpan", Json.num cs), ("rowSpan", Json.num rs)]
    ++ baseFields b
  | LexicalNode.pageBreak b =>
    [("type", Json.str "page-break")] ++ baseFields b
  | LexicalNode.aiEmbedding c loading b =>
    [("type", Json.str "ai-embedding"), ("content", Json.str c),
     ("isLoading", Json.bool loading)] ++ baseFields b
  | LexicalNode.voiceInput c b =>
    [("type", Json.str "voice-input"), ("content", Json.str c)] ++ baseFields b
  | LexicalNode.chatMessage snd c ts b =>
    [("type", Json.str "chat-message"), ("sender", snd.toJson),
     ("content", Json.str c), ("timestamp", Json.str ts)] ++ baseFields b
  | LexicalNode.chatSession sid msgs b =>
    [("type", Json.str "chat-session"), ("sessionId", Json.str sid),
     ("messages", Json.arr (msgs.map ChatSessionMessage.toJson))] ++ baseFields b
  | LexicalNode.mention mn t fmt b =>
    [("type", Json.str "mention"), ("mentionName", Json.str mn),
     ("text", Json.str t), ("format", Json.num fmt)] ++ baseFields b

/-- Serialization of a node sequence, each node as an object. -/
def nodesToJson : List LexicalNode → List Json
  | [] => []
  | n :: rest => Json.obj (nodeToFields n) :: nodesToJson rest

end

/-- Serialization of one node as a JSON object. -/
def LexicalNode.toJson (n : LexicalNode) : Json := Json.obj (nodeToFields n)

/-- Serialization of the root node: its own type field, children, then
the flattened base. -/
def RootNode.toJson (r : RootNode) : Json :=
  Json.obj ([("type", Json.str r.node_type),
    ("children", Json.arr (nodesToJson r.children))] ++ baseFields r.base)

/-- Serialization of a whole Note; note_id is an optional field without a
skip annotation, so an absent id serializes as an explicit null. -/
def Note.toJson (n : Note) : Json :=
  Json.obj [("noteId", match n.note_id with
      | some s => Json.str s
      | none => Json.null),
    ("lexicalState", Json.obj [("root", RootNode.toJson n.lexical_state.root)])]

/-- A looked-up field value is structurally smaller than the field list it
came from; used for the recursion measure of deserialization. -/
def lookupLast_sizeOf_lt {k : String} :
    ∀ {l : List (String × Json)} {v : Json}, lookupLast k l = some v → sizeOf v < sizeOf l := by
  intro l
  induction l with
  | nil => intro v h; exact Option.noConfusion h
  | cons p rest ih =>
    obtain ⟨k', v'⟩ := p
    intro v h
    rw [lookupLast] at h
    cases hr : lookupLast k rest with
    | some r =>
      rw [hr] at h
      dsimp only at h
      cases h
      have := ih hr
      simp only [List.cons.sizeOf_spec]
      omega
    | none =>
      rw [hr] at h
      dsimp only at h
      split at h
      · cases h
        simp only [List.cons.sizeOf_spec, Prod.mk.sizeOf_spec]
        omega
      · exact Option.noConfusion h

/-- A required string field: must be present and a string. -/
def reqStr (v : Option Json) : Option String :=
  match v with
  | some (Json.str s) => some s
  | _ => none

/-- A required u32 field. -/
def reqU32 (v : Option Json) : Option Nat :=
  match v with
  | some j => j.asU32
  | none => none

/-- A required bool field. -/
def reqBool (v : Option Json) : Option Bool :=
  match v with
  | some (Json.bool b) => some b
  | _ => none

/-- A u32 field with the serde default annotation: absent means zero,
present must be a u32. -/
def defU32 (v : Option Json) : Option Nat :=
  match v with
  | none => some 0
  | some j => j.asU32

/-- A string field with the serde default annotation: absent means the
empty string, present must be a string. -/
def defStr (v : Option Json) : Option String :=
  match v with
  | none => some ""
  | some (Json.str s) => some s
  | some _ => none

/-- An optional string field: absent or null means none. -/
def asOptStrField (v : Option Json) : Option (Option String) :=
  match v with
  | none => some none
  | some Json.null => some none
  | some (Json.str s) => some (some s)
  | some _ => none

/-- An optional u32 field: absent or null means none. -/
def asOptU32Field (v : Option Json) : Option (Option Nat) :=
  match v with
  | none => some none
  | some Json.null => some none
  | some (Json.num (Int.ofNat n)) => some (some n)
  | some _ => none

/-- Deserialization of TextDirection from its wire strings. -/
def asDirection : Json → Option TextDirection
  | Json.str "ltr" => some TextDirection.ltr
  | Json.str "rtl" => some TextDirection.rtl
  | _ => none

/-- An optional direction field: absent or null means none. -/
def asOptDirectionField (v : Option Json) : Option (Option TextDirection) :=
  match v with
  | none => some none
  | some Json.null => some none
  | some j =>
    match asDirection j with
    | some d => some (some d)
    | none => none

/-- Deserialization of HeadingTag from its wire strings. -/
def asHeadingTag : Json → Option HeadingTag
  | Json.str "h1" => some HeadingTag.h1
  | Json.str "h2" => some HeadingTag.h2
  | Json.str "h3" => some HeadingTag.h3
  | Json.str "h4" => some HeadingTag.h4
  | Json.str "h5" => some HeadingTag.h5
  | Json.str "h6" => some HeadingTag.h6
  | _ => none

/-- Deserialization of ListType from its wire strings. -/
def asListType : Json → Option ListType
  | Json.str "bullet" => some ListType.bullet
  | Json.str "number" => some ListType.number
  | _ => none

/-- Deserialization of MessageSender from its wire strings. -/
def asSender : Json → Option MessageSender
  | Json.str "user" => some MessageSender.user
  | Json.str "agent" => some MessageSender.agent
  | Json.str "system" => some MessageSender.system
  | _ => none

/-- Deserialization of the flattened base from the object's field list.
With the flatten annotation the outer struct consumes its own declared
fields first, so a variant owning its own format field (consumedFormat)
never passes a format key through to the base, whose optional format then
deserializes as absent. -/
def baseFromFields (consumedFormat : Bool) (m : List (String × Json)) :
    Option BaseNodeProperties :=
  match reqU32 (lookupLast "version" m) with
  | none => none
  | some v =>
    match asOptDirectionField (lookupLast "direction" m) with
    | none => none
    | some dir =>
      match (if consumedFormat then some none else asOptStrField (lookupLast "format" m)) with
      | none => none
      | some fmt =>
        match asOptU32Field (lookupLast "indent" m) with
        | none => none
        | some ind => some { version := v, direction := dir, format := fmt, indent := ind }

/-- Deserialization of a chat session message. -/
def ChatSessionMessage.fromJson (j : Json) : Option ChatSessionMessage :=
  match j with
  | Json.obj m =>
    match reqU32 (lookupLast "id" m),
        (match lookupLast "sender" m with
          | some x => asSender x
          | none => none),
        reqStr (lookupLast "content" m), reqStr (lookupLast "timestamp" m) with
    | some i, some snd, some c, some ts =>
      some { id := i, sender := snd, content := c, timestamp := ts }
    | _, _, _, _ => none
  | _ => none

/-- Deserialization of a chat session message sequence. -/
def msgsFromJson : List Json → Option (List ChatSessionMessage)
  | [] => some []
  | j :: rest =>
    match ChatSessionMessage.fromJson j with
    | some msg =>
      match msgsFromJson rest with
      | some ms => some (msg :: ms)
      | none => none
    | none => none

/-- The recognized type discriminators, as an enumeration so that the
deserializer's dispatch is a small match. -/
inductive NodeTag where
  | tText | tParagraph | tHeading | tList | tListitem | tQuote | tCode | tLink
  | tAutolink | tHashtag | tTable | tTablerow | tTablecell | tPageBreak
  | tAiEmbedding | tVoiceInput | tChatMessage | tChatSession | tMention | tUnknown
deriving DecidableEq

/-- Classification of a type discriminator string. -/
def tagOf (t : String) : NodeTag :=
  if t = "text" then NodeTag.tText
  else if t = "paragraph" then NodeTag.tParagraph
  else if t = "heading" then NodeTag.tHeading
  else if t = "list" then NodeTag.tList
  else if t = "listitem" then NodeTag.tListitem
  else if t = "quote" then NodeTag.tQuote
  else if t = "code" then NodeTag.tCode
  else if t = "link" then NodeTag.tLink
  else if t = "autolink" then NodeTag.tAutolink
  else if t = "hashtag" then NodeTag.tHashtag
  else if t = "table" then NodeTag.tTable
  else if t = "tablerow" then NodeTag.tTablerow
  else if t = "tablecell" then NodeTag.tTablecell
  else if t = "page-break" then NodeTag.tPageBreak
  else if t = "ai-embedding" then NodeTag.tAiEmbedding
  else if t = "voice-input" then NodeTag.tVoiceInput
  else if t = "chat-message" then NodeTag.tChatMessage
  else if t = "chat-session" then NodeTag.tChatSession
  else if t = "mention" then NodeTag.tMention
  else NodeTag.tUnknown

/-- Reader for a text node's fields: declared fields then the flattened
base, whose format slot the variant's own format field has consumed. -/
def textFromObj (m : List (String × Json)) : Option LexicalNode :=
  match reqStr (lookupLast "text" m), reqU32 (lookupLast "format" m),
      defU32 (lookupLast "detail" m), defStr (lookupLast "mode" m),
      defStr (lookupLast "style" m), baseFromFields true m with
  | some tx, some fmt, some dt, some md, some st, some b =>
    some (LexicalNode.text tx fmt dt md st b)
  | _, _, _, _, _, _ => none

/-- Reader for a hashtag node's fields. -/
def hashtagFromObj (m : List (String × Json)) : Option LexicalNode :=
  match reqStr (lookupLast "text" m), reqU32 (lookupLast "format" m),
      baseFromFields true m with
  | some tx, some fmt, some b => some (LexicalNode.hashtag tx fmt b)
  | _, _, _ => none

/-- Reader for a page break node's fields. -/
def pageBreakFromObj (m : List (String × Json)) : Option LexicalNode :=
  match baseFromFields false m with
  | some b => some (LexicalNode.pageBreak b)
  | none => none

/-- Reader for an AI embedding node's fields. -/
def aiEmbeddingFromObj (m : List (String × Json)) : Option LexicalNode :=
  match reqStr (lookupLast "content" m), reqBool (lookupLast "isLoading" m),
      baseFromFields false m with
  | some c, some loading, some b => some (LexicalNode.aiEmbedding c loading b)
  | _, _, _ => none

/-- Reader for a voice input node's fields. -/
def voiceInputFromObj (m : List (String × Json)) : Option LexicalNode :=
  match reqStr (lookupLast "content" m), baseFromFields false m with
  | some c, some b => some (LexicalNode.voiceInput c b)
  | _, _ => none

/-- Reader for a chat message node's fields. -/
def chatMessageFromObj (m : List (String × Json)) : Option LexicalNode :=
  match (match lookupLast "sender" m with
      | some x => asSender x
      | none => none), reqStr (lookupLast "content" m),
      reqStr (lookupLast "timestamp" m), baseFromFields false m with
  | some snd, some c, some ts, some b => some (LexicalNode.chatMessage snd c ts b)
  | _, _, _, _ => none

/-- Reader for a chat session node's fields. -/
def chatSessionFromObj (m : List (String × Json)) : Option LexicalNode :=
  match reqStr (lookupLast "sessionId" m),
      (match lookupLast "messages" m with
        | some (Json.arr js) => msgsFromJson js
        | _ => none), baseFromFields false m with
  | some sid, some msgs, some b => some (LexicalNode.chatSession sid msgs b)
  | _, _, _ => none

/-- Reader for a mention node's fields. -/
def mentionFromObj (m : List (String × Json)) : Option LexicalNode :=
  match reqStr (lookupLast "mentionName" m), reqStr (lookupLast "text" m),
      reqU32 (lookupLast "format" m), baseFromFields true m with
  | some mn, some tx, some fmt, some b => some (LexicalNode.mention mn tx fmt b)
  | _, _, _, _ => none

mutual

/-- Reader for a paragraph node's fields. -/
def paragraphFromObj (m : List (String × Json)) : Option LexicalNode :=
  match hch : lookupLast "children" m with
  | some (Json.arr cs) =>
    (match nodesFromJson cs with
    | some children =>
      match defU32 (lookupLast "textFormat" m), defStr (lookupLast "textStyle" m),
          baseFromFields false m with
      | some tf, some ts, some b => some (LexicalNode.paragraph children tf ts b)
      | _, _, _ => none
    | none => none)
  | _ => none
termination_by sizeOf m
decreasing_by
  all_goals
    (simp_wf
     have hlt := lookupLast_sizeOf_lt hch
     simp only [Json.arr.sizeOf_spec] at hlt
     omega)

/-- Reader for a heading node's fields. -/
def headingFromObj (m : List (String × Json)) : Option LexicalNode :=
  match hch : lookupLast "children" m with
  | some (Json.arr cs) =>
    (match nodesFromJson cs with
    | some children =>
      match (match lookupLast "tag" m with
          | some x => asHeadingTag x
          | none => none), baseFromFields false m with
      | some tag, some b => some (LexicalNode.heading tag children b)
      | _, _ => none
    | none => none)
  | _ => none
termination_by sizeOf m
decreasing_by
  all_goals
    (simp_wf
     have hlt := lookupLast_sizeOf_lt hch
     simp only [Json.arr.sizeOf_spec] at hlt
     omega)

/-- Reader for a list node's fields. -/
def listFromObj (m : List (String × Json)) : Option LexicalNode :=
  match hch : lookupLast "children" m with
  | some (Json.arr cs) =>
    (match nodesFromJson cs with
    | some children =>
      match (match lookupLast "listType" m with
          | some x => asListType x
          | none => none), asOptU32Field (lookupLast "start" m),
          baseFromFields false m with
      | some lt, some st, some b => some (LexicalNode.list lt st children b)
      | _, _, _ => none
    | none => none)
  | _ => none
termination_by sizeOf m
decreasing_by
  all_goals
    (simp_wf
     have hlt := lookupLast_sizeOf_lt hch
     simp only [Json.arr.sizeOf_spec] at hlt
     omega)

/-- Reader for a list item node's fields. -/
def listitemFromObj (m : List (String × Json)) : Option LexicalNode :=
  match hch : lookupLast "children" m with
  | some (Json.arr cs) =>
    (match nodesFromJson cs with
    | some children =>
      match baseFromFields false m with
      | some b => some (LexicalNode.listitem children b)
      | none => none
    | none => none)
  | _ => none
termination_by sizeOf m
decreasing_by
  all_goals
    (simp_wf
     have hlt := lookupLast_sizeOf_lt hch
     simp only [Json.arr.sizeOf_spec] at hlt
     omega)

/-- Reader for a quote node's fields. -/
def quoteFromObj (m : List (String × Json)) : Option LexicalNode :=
  match hch : lookupLast "children" m with
  | some (Json.arr cs) =>
    (match nodesFromJson cs with
    | some children =>
      match baseFromFields false m with
      | some b => some (LexicalNode.quote children b)
      | none => none
    | none => none)
  | _ => none
termination_by sizeOf m
decreasing_by
  all_goals
    (simp_wf
     have hlt := lookupLast_sizeOf_lt hch
     simp only [Json.arr.sizeOf_spec] at hlt
     omega)

/-- Reader for a code node's fields: optional inline text, optional
language, optional child sequence. -/
def codeFromObj (m : List (String × Json)) : Option LexicalNode :=
  match asOptStrField (lookupLast "text" m), asOptStrField (lookupLast "language" m),
      reqU32 (lookupLast "format" m), baseFromFields true m with
  | some tx, some lang, some fmt, some b =>
    (match hch : lookupLast "children" m with
    | some (Json.arr cs) =>
      (match nodesFromJson cs with
      | some children => some (LexicalNode.code tx lang (some children) fmt b)
      | none => none)
    | some Json.null => some (LexicalNode.code tx lang none fmt b)
    | none => some (LexicalNode.code tx lang none fmt b)
    | some _ => none)
  | _, _, _, _ => none
termination_by sizeOf m
decreasing_by
  all_goals
    (simp_wf
     have hlt := lookupLast_sizeOf_lt hch
     simp only [Json.arr.sizeOf_spec] at hlt
     omega)

/-- Reader for a link node's fields. -/
def linkFromObj (m : List (String × Json)) : Option LexicalNode :=
  match hch : lookupLast "children" m with
  | some (Json.arr cs) =>
    (match nodesFromJson cs with
    | some children =>
      match reqStr (lookupLast "url" m), asOptStrField (lookupLast "rel" m),
          asOptStrField (lookupLast "target" m), baseFromFields false m with
      | some url, some rel, some tgt, some b =>
        some (LexicalNode.link url rel tgt children b)
      | _, _, _, _ => none
    | none => none)
  | _ => none
termination_by sizeOf m
decreasing_by
  all_goals
    (simp_wf
     have hlt := lookupLast_sizeOf_lt hch
     simp only [Json.arr.sizeOf_spec] at hlt
     omega)

/-- Reader for an autolink node's fields. -/
def autolinkFromObj (m : List (String × Json)) : Option LexicalNode :=
  match hch : lookupLast "children" m with
  | some (Json.arr cs) =>
    (match nodesFromJson cs with
    | some children =>
      match reqStr (lookupLast "url" m), baseFromFields false m with
      | some url, some b => some (LexicalNode.autolink url children b)
      | _, _ => none
    | none => none)
  | _ => none
termination_by sizeOf m
decreasing_by
  all_goals
    (simp_wf
     have hlt := lookupLast_sizeOf_lt hch
     simp only [Json.arr.sizeOf_spec] at hlt
     omega)

/-- Reader for a table node's fields. -/
def tableFromObj (m : List (String × Json)) : Option LexicalNode :=
  match hch : lookupLast "children" m with
  | some (Json.arr cs) =>
    (match nodesFromJson cs with
    | some children =>
      match baseFromFields false m with
      | some b => some (LexicalNode.table children b)
      | none => none
    | none => none)
  | _ => none
termination_by sizeOf m
decreasing_by
  all_goals
    (simp_wf
     have hlt := lookupLast_sizeOf_lt hch
     simp only [Json.arr.sizeOf_spec] at hlt
     omega)

/-- Reader for a table row node's fields. -/
def tablerowFromObj (m : List (String × Json)) : Option LexicalNode :=
  match hch : lookupLast "children" m with
  | some (Json.arr cs) =>
    (match nodesFromJson cs with
    | some children =>
      match baseFromFields false m with
      | some b => some (LexicalNode.tablerow children b)
      | none => none
    | none => none)
  | _ => none
termination_by sizeOf m
decreasing_by
  all_goals
    (simp_wf
     have hlt := lookupLast_sizeOf_lt hch
     simp only [Json.arr.sizeOf_spec] at hlt
     omega)

/-- Reader for a table cell node's fields. -/
def tablecellFromObj (m : List (String × Json)) : Option LexicalNode :=
  match hch : lookupLast "children" m with
  | some (Json.arr cs) =>
    (match nodesFromJson cs with
    | some children =>
      match reqU32 (lookupLast "headerState" m), reqU32 (lookupLast "colSpan" m),
          reqU32 (lookupLast "rowSpan" m), baseFromFields false m with
      | some hs, some csp, some rs, some b =>
        some (LexicalNode.tablecell children hs csp rs b)
      | _, _, _, _ => none
    | none => none)
  | _ => none
termination_by sizeOf m
decreasing_by
  all_goals
    (simp_wf
     have hlt := lookupLast_sizeOf_lt hch
     simp only [Json.arr.sizeOf_spec] at hlt
     omega)

/-- Deserialization of one node from a JSON value: an object whose type
discriminator selects the variant reader; any other shape or an unknown
discriminator fails. -/
def nodeFromJson : Json → Option LexicalNode
  | Json.obj m =>
    (match lookupLast "type" m with
    | some (Json.str t) =>
      match tagOf t with
      | NodeTag.tText => textFromObj m
      | NodeTag.tParagraph => paragraphFromObj m
      | NodeTag.tHeading => headingFromObj m
      | NodeTag.tList => listFromObj m
      | NodeTag.tListitem => listitemFromObj m
      | NodeTag.tQuote => quoteFromObj m
      | NodeTag.tCode => codeFromObj m
      | NodeTag.tLink => linkFromObj m
      | NodeTag.tAutolink => autolinkFromObj m
      | NodeTag.tHashtag => hashtagFromObj m
      | NodeTag.tTable => tableFromObj m
      | NodeTag.tTablerow => tablerowFromObj m
      | NodeTag.tTablecell => tablecellFromObj m
      | NodeTag.tPageBreak => pageBreakFromObj m
      | NodeTag.tAiEmbedding => aiEmbeddingFromObj m
      | NodeTag.tVoiceInput => voiceInputFromObj m
      | NodeTag.tChatMessage => chatMessageFromObj m
      | NodeTag.tChatSession => chatSessionFromObj m
      | NodeTag.tMention => mentionFromObj m
      | NodeTag.tUnknown => none
    | _ => none)
  | _ => none
termination_by j => sizeOf j
decreasing_by
  all_goals simp_wf
  all_goals omega

/-- Deserialization of a node sequence: every element must deserialize. -/
def nodesFromJson : List Json → Option (List LexicalNode)
  | [] => some []
  | j :: rest =>
    match nodeFromJson j with
    | some n =>
      match nodesFromJson rest with
      | some ns => some (n :: ns)
      | none => none
    | none => none
termination_by l => sizeOf l
decreasing_by
  all_goals simp_wf
  all_goals omega

end

/-- Deserialization of the root node: required type string, required
children sequence, flattened base from the same object. -/
def RootNode.fromJson (j : Json) : Option RootNode :=
  match j with
  | Json.obj m =>
    match reqStr (lookupLast "type" m) with
    | some t =>
      match lookupLast "children" m with
      | some (Json.arr cs) =>
        (match nodesFromJson cs with
        | some children =>
          match baseFromFields false m with
          | some b => some { node_type := t, children := children, base := b }
          | none => none
        | none => none)
      | _ => none
    | none => none
  | _ => none

/-- Deserialization of a whole Note from a JSON value (the image of the
wire text under the JSON reader): optional noteId, required lexicalState
holding a required root. -/
def Note.fromJson (j : Json) : Option Note :=
  match j with
  | Json.obj m =>
    match asOptStrField (lookupLast "noteId" m) with
    | some nid =>
      match lookupLast "lexicalState" m with
      | some (Json.obj lm) =>
        (match lookupLast "root" lm with
        | some rj =>
          match RootNode.fromJson rj with
          | some root => some { note_id := nid, lexical_state := { root := root } }
          | none => none
        | none => none)
      | _ => none
    | none => none
  | _ => none

mutual

/-- Whether a node avoids the wire name collision between a variant's own
numeric format field and the flattened base's optional format field: on
the four variants owning a format field the base format must be absent,
and the condition holds recursively for children. -/
def formatSafeNode : LexicalNode → Bool
  | LexicalNode.text _ _ _ _ _ b => b.format.isNone
  | LexicalNode.paragraph children _ _ _ => formatSafeNodes children
  | LexicalNode.heading _ children _ => formatSafeNodes children
  | LexicalNode.list _ _ children _ => formatSafeNodes children
  | LexicalNode.listitem children _ => formatSafeNodes children
  | LexicalNode.quote children _ => formatSafeNodes children
  | LexicalNode.code _ _ ch _ b =>
    b.format.isNone &&
      (match ch with
        | some cs => formatSafeNodes cs
        | none => true)
  | LexicalNode.link _ _ _ children _ => formatSafeNodes children
  | LexicalNode.autolink _ children _ => formatSafeNodes children
  | LexicalNode.hashtag _ _ b => b.format.isNone
  | LexicalNode.table children _ => formatSafeNodes children
  | LexicalNode.tablerow children _ => formatSafeNodes children
  | LexicalNode.tablecell children _ _ _ _ => formatSafeNodes children
  | LexicalNode.pageBreak _ => true
  | LexicalNode.aiEmbedding _ _ _ => true
  | LexicalNode.voiceInput _ _ => true
  | LexicalNode.chatMessage _ _ _ _ => true
  | LexicalNode.chatSession _ _ _ => true
  | LexicalNode.mention _ _ _ b => b.format.isNone

/-- The collision-avoidance condition over a node sequence. -/
def formatSafeNodes : List LexicalNode → Bool
  | [] => true
  | n :: rest => formatSafeNode n && formatSafeNodes rest

end

/-- The collision-avoidance condition for a whole Note. -/
def Note.formatSafe (n : Note) : Bool :=
  formatSafeNodes n.lexical_state.root.children

/-- Whether a serialized field list carries a key. -/
def hasKey (k : String) (l : List (String × Json)) : Bool :=
  l.any (fun p => p.1 = k)

/-- The field list of an object value, empty for other values. -/
def Json.fieldsOf : Json → List (String × Json)
  | Json.obj m => m
  | _ => []

/-- A base carrying only the required version, for concrete examples. -/
def exampleBase : BaseNodeProperties :=
  { version := 1, direction := none, format := none, indent := none }

/-- A note whose only top level child is a page break. -/
def examplePageBreakNote : Note :=
  { note_id := none,
    lexical_state := { root :=
      { node_type := "root", children := [LexicalNode.pageBreak exampleBase],
        base := exampleBase } } }

/-- A small collision free note for round trip witnesses. -/
def exampleNote : Note :=
  { note_id := some "note-1",
    lexical_state := { root :=
      { node_type := "root",
        children := [LexicalNode.text "hi" 0 0 "normal" "" exampleBase,
          LexicalNode.pageBreak exampleBase],
        base := exampleBase } } }

/-- A note containing a text node whose base format is present: its own
numeric format key and the flattened base format key collide on the wire. -/
def collidingNote : Note :=
  { note_id := none,
    lexical_state := { root :=
      { node_type := "root",
        children := [LexicalNode.text "hi" 0 0 "" ""
          { version := 1, direction := none, format := some "x", indent := none }],
        base := exampleBase } } }

/-- A serialized list node without a start key. -/
def listNodeJson : Json :=
  Json.obj [("type", Json.str "list"), ("listType", Json.str "bullet"),
    ("children", Json.arr []), ("version", Json.num 1)]

theorem trimStartTicks_spec : ∀ l : List Char,
    ∃ k, l = List.replicate (3 * k) tick ++ trimStartTicks l
      ∧ startsTicks (trimStartTicks l) = false := by
  intro l
  induction l using trimStartTicks.induct with
  | case1 a b c rest h ih =>
    obtain ⟨ha, hb, hc⟩ := h
    obtain ⟨k, hk, hs⟩ := ih
    refine ⟨k + 1, ?_, ?_⟩
    · rw [trimStartTicks]
      simp only [ha, hb, hc, if_pos (And.intro rfl (And.intro rfl rfl))]
      have h3 : 3 * (k + 1) = 3 + 3 * k := by ring
      rw [h3, List.replicate_add]
      simpa [List.replicate, ha, hb, hc] using hk
    · rw [trimStartTicks]
      simp only [ha, hb, hc, if_pos (And.intro rfl (And.intro rfl rfl))]
      exact hs
  | case2 a b c rest h =>
    refine ⟨0, ?_, ?_⟩
    · simp [trimStartTicks, h]
    · rw [trimStartTicks]
      simp only [if_neg h]
      simp only [startsTicks]
      rw [Bool.eq_false_iff]
      intro hcontra
      apply h
      simp at hcontra
      exact ⟨hcontra.1.1, hcontra.1.2, hcontra.2⟩
  | case3 l h =>
    have ht : trimStartTicks l = l := by
      rw [trimStartTicks.eq_def]
      split
      · rename_i a b c rest
        exact ((h a b c rest rfl).elim)
      · rfl
    refine ⟨0, by simp [ht], ?_⟩
    rw [ht]
    match l, h with
    | [], _ => rfl
    | [x], _ => rfl
    | [x, y], _ => rfl
    | x :: y :: z :: zs, h => exact ((h x y z zs rfl).elim)

theorem trimEndTicks_spec : ∀ l : List Char,
    ∃ k, l = trimEndTicks l ++ List.replicate (3 * k) tick
      ∧ endsTicks (trimEndTicks l) = false := by
  intro l
  obtain ⟨k, hk, hs⟩ := trimStartTicks_spec l.reverse
  refine ⟨k, ?_, ?_⟩
  · conv_lhs => rw [← List.reverse_reverse l, hk]
    rw [List.reverse_append, List.reverse_replicate]
    rfl
  · unfold endsTicks trimEndTicks
    rw [List.reverse_reverse]
    exact hs

theorem dropWhile_head_false {p : Char → Bool} :
    ∀ {l c t}, List.dropWhile p l = c :: t → p c = false := by
  intro l
  induction l with
  | nil => intro c t h; simp [List.dropWhile] at h
  | cons a as ih =>
    intro c t h
    rw [List.dropWhile_cons] at h
    by_cases hp : p a
    · rw [if_pos hp] at h; exact ih h
    · rw [if_neg hp] at h
      cases h
      simpa using hp

theorem dropWhile_append_last {p : Char → Bool} {a : Char} (h : p a = false) :
    ∀ xs : List Char, ∃ z, List.dropWhile p (xs ++ [a]) = z ++ [a] := by
  intro xs
  induction xs with
  | nil => exact ⟨[], by simp [List.dropWhile_cons, h]⟩
  | cons x xs ih =>
    by_cases hp : p x
    · obtain ⟨z, hz⟩ := ih
      exact ⟨z, by simp [List.dropWhile_cons, hp, hz]⟩
    · exact ⟨x :: xs, by simp [List.dropWhile_cons, hp]⟩

theorem skipWs_listTrim (l : List Char) : skipWs (listTrim l) = listTrim l := by
  unfold listTrim skipWs
  cases hd : l.dropWhile Char.isWhitespace with
  | nil => simp
  | cons c t =>
    have hc : Char.isWhitespace c = false := dropWhile_head_false hd
    rw [List.reverse_cons]
    obtain ⟨z, hz⟩ := dropWhile_append_last hc t.reverse
    rw [hz, List.reverse_append]
    simp [List.dropWhile_cons, hc]

theorem parseDigits_num {neg : Bool} {l : List Char} {j : Json} {r : List Char}
    (h : parseDigits neg l = some (j, r)) : ∃ n, j = Json.num n := by
  unfold parseDigits at h
  dsimp only at h
  split at h
  · exact Option.noConfusion h
  · cases hdw : List.dropWhile Char.isDigit l with
    | nil =>
      rw [hdw] at h
      dsimp only at h
      exact (by cases h; exact ⟨_, rfl⟩)
    | cons c2 tail =>
      rw [hdw] at h
      dsimp only at h
      split at h
      · exact Option.noConfusion h
      · exact (by cases h; exact ⟨_, rfl⟩)

theorem parseNumFrom_num {l : List Char} {j : Json} {r : List Char}
    (h : parseNumFrom l = some (j, r)) : ∃ n, j = Json.num n := by
  unfold parseNumFrom at h
  cases l with
  | nil => simp at h
  | cons c rest =>
    dsimp only at h
    split at h
    · exact parseDigits_num h
    · exact parseDigits_num h

theorem parseValue_obj {fuel : Nat} {l : List Char} {fs : List (String × Json)} {r : List Char}
    (h : parseValue fuel l = some (Json.obj fs, r)) :
    ∃ t, skipWs l = lbrace :: t := by
  cases fuel with
  | zero => simp [parseValue] at h
  | succ fuel =>
    rw [parseValue] at h
    cases hsk : skipWs l with
    | nil => rw [hsk] at h; simp at h
    | cons c rest =>
      rw [hsk] at h
      dsimp only at h
      by_cases hc : c = lbrace
      · exact ⟨rest, by rw [hc]⟩
      · rw [if_neg hc] at h
        split at h
        · split at h <;> simp_all
        · split at h
          · split at h <;> simp_all
          · split at h
            · split at h <;> simp_all
            · split at h
              · split at h <;> simp_all
              · split at h
                · split at h <;> simp_all
                · obtain ⟨n, hn⟩ := parseNumFrom_num h
                  simp at hn

theorem fromStr_obj_lbrace {m : List Char} {fs : List (String × Json)}
    (h : Json.fromStr (String.mk m) = some (Json.obj fs)) :
    ∃ t, skipWs m = lbrace :: t := by
  unfold Json.fromStr at h
  rcases hpv : parseValue (4 * (String.mk m).data.length + 8) (String.mk m).data
      with _ | ⟨j', rest⟩
  · rw [hpv] at h; exact Option.noConfusion h
  · rw [hpv] at h
    dsimp only at h
    split at h
    · cases h
      exact parseValue_obj hpv
    · exact Option.noConfusion h

theorem processedChars_skipWs (s : String) :
    skipWs (processedChars s) = processedChars s := by
  unfold processedChars
  exact skipWs_listTrim _

theorem getField_obj {j : Json} {k : String} {a : Json}
    (h : j.getField k = some a) : ∃ fs, j = Json.obj fs := by
  cases j with
  | obj fs => exact ⟨fs, rfl⟩
  | null => exact Option.noConfusion h
  | bool b => exact Option.noConfusion h
  | num n => exact Option.noConfusion h
  | str t => exact Option.noConfusion h
  | arr xs => exact Option.noConfusion h

theorem startsWithLBrace_of_obj {s : String} {fs : List (String × Json)}
    (h : Json.fromStr (processedString s) = some (Json.obj fs)) :
    startsWithLBrace (processedChars s) = true := by
  have h' : Json.fromStr (String.mk (processedChars s)) = some (Json.obj fs) := h
  obtain ⟨t, ht⟩ := fromStr_obj_lbrace h'
  rw [processedChars_skipWs] at ht
  rw [ht]
  simp [startsWithLBrace]


/-- C2: any input whose preprocessed text parses as JSON carrying an
action field equal to none of insert_node, modify_node, reply (including
any non-string value) yields the terminal unsupported-action-type error
carrying the offending value, never a Reply. -/
theorem c2_unsupported_action_type (s : String) (j a : Json)
    (hj : Json.fromStr (processedString s) = some j)
    (ha : j.getField "action" = some a)
    (h1 : a.asStr ≠ some "insert_node")
    (h2 : a.asStr ≠ some "modify_node")
    (h3 : a.asStr ≠ some "reply") :
    ChatAction.try_from_reply s = Except.error (ActionError.unsupportedActionType a) := by
  obtain ⟨fs, rfl⟩ := getField_obj ha
  have hsw := startsWithLBrace_of_obj hj
  have hj' : Json.fromStr (String.mk (processedChars s)) = some (Json.obj fs) := hj
  unfold ChatAction.try_from_reply
  dsimp only
  rw [hsw]
  simp only [if_true]
  rw [hj']
  dsimp only
  rw [ha]
  dsimp only
  cases hstr : a.asStr with
  | none => rfl
  | some t =>
    split
    · rename_i heq
      exact absurd (hstr.trans (by rw [← heq])) h1
    · rename_i heq
      exact absurd (hstr.trans (by rw [← heq])) h2
    · rename_i heq
      exact absurd (hstr.trans (by rw [← heq])) h3
    · rfl

/-- C3: any input whose preprocessed text parses as JSON with no action
field yields a successful Reply whose content is the preprocessed text
verbatim (an input not starting with a brace takes the prose path to the
same result). -/
theorem c3_actionless_json_is_reply (s : String) (j : Json)
    (hj : Json.fromStr (processedString s) = some j)
    (ha : j.getField "action" = none) :
    ChatAction.try_from_reply s
      = Except.ok (ChatAction.reply (Reply.fromContent (processedString s))) := by
  cases hsw : startsWithLBrace (processedChars s) with
  | false =>
    unfold ChatAction.try_from_reply
    dsimp only
    rw [hsw]
    simp only [Bool.false_eq_true, if_false]
    rfl
  | true =>
    have hj' : Json.fromStr (String.mk (processedChars s)) = some j := hj
    unfold ChatAction.try_from_reply
    dsimp only
    rw [hsw]
    simp only [if_true]
    rw [hj']
    dsimp only
    rw [ha]
    rfl

/-- C9: the parser is total: for every raw reply it returns either a
typed action or an explicit error; and when the preprocessed text starts
with a brace but fails to parse as JSON the result is exactly the
malformed-action-json error. -/
theorem c9_parse_totality (s : String) :
    (startsWithLBrace (processedChars s) = true →
      Json.fromStr (processedString s) = none →
      ChatAction.try_from_reply s = Except.error ActionError.malformedActionJson)
    ∧ ((∃ a, ChatAction.try_from_reply s = Except.ok a) ∨
       (∃ e, ChatAction.try_from_reply s = Except.error e)) := by
  constructor
  · intro hsw hn
    have hn' : Json.fromStr (String.mk (processedChars s)) = none := hn
    unfold ChatAction.try_from_reply
    dsimp only
    rw [hsw]
    simp only [if_true]
    rw [hn']
  · cases h : ChatAction.try_from_reply s with
    | ok a => exact Or.inl ⟨a, rfl⟩
    | error e => exact Or.inr ⟨e, rfl⟩

theorem Reply.fromJson_action {j : Json} {rr : Reply} (h : Reply.fromJson j = some rr) :
    j.getField "action" = some (Json.str rr.action) := by
  unfold Reply.fromJson at h
  split at h
  · rename_i a c heq1 heq2
    cases h
    exact heq1
  · exact Option.noConfusion h

/-- C10: every Reply the parser returns, on any path (prose, actionless
JSON, or an explicit reply action), carries the action discriminator
string reply. -/
theorem c10_reply_discriminator (s : String) (r : Reply)
    (h : ChatAction.try_from_reply s = Except.ok (ChatAction.reply r)) :
    r.action = "reply" := by
  unfold ChatAction.try_from_reply at h
  dsimp only at h
  cases hsw : startsWithLBrace (processedChars s) with
  | false =>
    rw [hsw] at h
    simp only [Bool.false_eq_true, if_false] at h
    cases h
    rfl
  | true =>
    rw [hsw] at h
    simp only [if_true] at h
    cases hfs : Json.fromStr (String.mk (processedChars s)) with
    | none => rw [hfs] at h; exact Except.noConfusion h
    | some j =>
      rw [hfs] at h
      dsimp only at h
      cases hga : j.getField "action" with
      | none =>
        rw [hga] at h
        dsimp only at h
        cases h
        rfl
      | some a =>
        rw [hga] at h
        dsimp only at h
        cases hstr : a.asStr with
        | none =>
          rw [hstr] at h
          dsimp only at h
          exact Except.noConfusion h
        | some t =>
          rw [hstr] at h
          split at h
          · split at h
            · exact ChatAction.noConfusion (Except.ok.inj h)
            · exact Except.noConfusion h
          · split at h
            · exact ChatAction.noConfusion (Except.ok.inj h)
            · exact Except.noConfusion h
          · rename_i heq
            split at h
            · rename_i rr hrep
              cases ChatAction.reply.inj (Except.ok.inj h)
              have hact := Reply.fromJson_action hrep
              rw [hga] at hact
              have ha2 : a = Json.str r.action := Option.some.inj hact
              subst ha2
              simp only [Json.asStr] at hstr
              have ht : t = "reply" := Option.some.inj heq
              exact (Option.some.inj hstr).trans ht
            · exact Except.noConfusion h
          · exact Except.noConfusion h


theorem lookupLast_append (k : String) (l1 l2 : List (String × Json)) :
    lookupLast k (l1 ++ l2)
      = match lookupLast k l2 with
        | some v => some v
        | none => lookupLast k l1 := by
  induction l1 with
  | nil =>
    simp only [List.nil_append]
    cases lookupLast k l2 <;> simp [lookupLast]
  | cons p l1 ih =>
    obtain ⟨k', v'⟩ := p
    cases h2 : lookupLast k l2 with
    | some v =>
      rw [List.cons_append, lookupLast, ih, h2]
    | none =>
      rw [List.cons_append, lookupLast, ih, h2]
      dsimp only
      conv_rhs => rw [lookupLast]

theorem lookupLast_none_of_keys {k : String} :
    ∀ {l : List (String × Json)}, (∀ p ∈ l, p.1 ≠ k) → lookupLast k l = none := by
  intro l
  induction l with
  | nil => intro _; rfl
  | cons p rest ih =>
    obtain ⟨k', v'⟩ := p
    intro h
    rw [lookupLast, ih (fun q hq => h q (List.mem_cons_of_mem _ hq))]
    exact if_neg (h (k', v') (List.mem_cons_self _ _))

theorem lookupLast_cons_of_ne {k k' : String} {v : Json} {rest : List (String × Json)}
    (h : k' ≠ k) : lookupLast k ((k', v) :: rest) = lookupLast k rest := by
  rw [lookupLast]
  cases lookupLast k rest with
  | some r => rfl
  | none => exact if_neg h

theorem lookupLast_cons_self {k : String} {v : Json} {rest : List (String × Json)}
    (h : lookupLast k rest = none) : lookupLast k ((k, v) :: rest) = some v := by
  rw [lookupLast, h]
  exact if_pos rfl

theorem optField_key {p : String × Json} {n : String} {v : Option Json}
    (h : p ∈ optField n v) : p.1 = n := by
  cases v with
  | none => exact absurd h (by simp [optField])
  | some j =>
    simp only [optField, List.mem_singleton] at h
    rw [h]

theorem baseFields_keys {b : BaseNodeProperties} {p : String × Json} (h : p ∈ baseFields b) :
    p.1 = "version" ∨ p.1 = "direction" ∨ p.1 = "format" ∨ p.1 = "indent" := by
  simp only [baseFields, List.append_assoc, List.mem_append, List.mem_singleton] at h
  rcases h with h | h | h | h
  · rw [h]; exact Or.inl rfl
  · exact Or.inr (Or.inl (optField_key h))
  · exact Or.inr (Or.inr (Or.inl (optField_key h)))
  · exact Or.inr (Or.inr (Or.inr (optField_key h)))

theorem lookupLast_baseFields_other {k : String} (b : BaseNodeProperties)
    (h1 : k ≠ "version") (h2 : k ≠ "direction") (h3 : k ≠ "format") (h4 : k ≠ "indent") :
    lookupLast k (baseFields b) = none := by
  apply lookupLast_none_of_keys
  intro p hp
  rcases baseFields_keys hp with h | h | h | h <;> rw [h]
  · exact fun he => h1 he.symm
  · exact fun he => h2 he.symm
  · exact fun he => h3 he.symm
  · exact fun he => h4 he.symm


theorem nodeFromJson_tag_text {m : List (String × Json)}
    (h : lookupLast "type" m = some (Json.str "text")) :
    nodeFromJson (Json.obj m) = textFromObj m := by
  rw [nodeFromJson, h]
  rfl

theorem nodeFromJson_tag_paragraph {m : List (String × Json)}
    (h : lookupLast "type" m = some (Json.str "paragraph")) :
    nodeFromJson (Json.obj m) = paragraphFromObj m := by
  rw [nodeFromJson, h]
  rfl

theorem nodeFromJson_tag_heading {m : List (String × Json)}
    (h : lookupLast "type" m = some (Json.str "heading")) :
    nodeFromJson (Json.obj m) = headingFromObj m := by
  rw [nodeFromJson, h]
  rfl

theorem nodeFromJson_tag_list {m : List (String × Json)}
    (h : lookupLast "type" m = some (Json.str "list")) :
    nodeFromJson (Json.obj m) = listFromObj m := by
  rw [nodeFromJson, h]
  rfl

theorem nodeFromJson_tag_listitem {m : List (String × Json)}
    (h : lookupLast "type" m = some (Json.str "listitem")) :
    nodeFromJson (Json.obj m) = listitemFromObj m := by
  rw [nodeFromJson, h]
  rfl

theorem nodeFromJson_tag_quote {m : List (String × Json)}
    (h : lookupLast "type" m = some (Json.str "quote")) :
    nodeFromJson (Json.obj m) = quoteFromObj m := by
  rw [nodeFromJson, h]
  rfl

theorem nodeFromJson_tag_code {m : List (String × Json)}
    (h : lookupLast "type" m = some (Json.str "code")) :
    nodeFromJson (Json.obj m) = codeFromObj m := by
  rw [nodeFromJson, h]
  rfl

theorem nodeFromJson_tag_link {m : List (String × Json)}
    (h : lookupLast "type" m = some (Json.str "link")) :
    nodeFromJson (Json.obj m) = linkFromObj m := by
  rw [nodeFromJson, h]
  rfl

theorem nodeFromJson_tag_autolink {m : List (String × Json)}
    (h : lookupLast "type" m = some (Json.str "autolink")) :
    nodeFromJson (Json.obj m) = autolinkFromObj m := by
  rw [nodeFromJson, h]
  rfl

theorem nodeFromJson_tag_hashtag {m : List (String × Json)}
    (h : lookupLast "type" m = some (Json.str "hashtag")) :
    nodeFromJson (Json.obj m) = hashtagFromObj m := by
  rw [nodeFromJson, h]
  rfl

theorem nodeFromJson_tag_table {m : List (String × Json)}
    (h : lookupLast "type" m = some (Json.str "table")) :
    nodeFromJson (Json.obj m) = tableFromObj m := by
  rw [nodeFromJson, h]
  rfl

theorem nodeFromJson_tag_tablerow {m : List (String × Json)}
    (h : lookupLast "type" m = some (Json.str "tablerow")) :
    nodeFromJson (Json.obj m) = tablerowFromObj m := by
  rw [nodeFromJson, h]
  rfl

theorem nodeFromJson_tag_tablecell {m : List (String × Json)}
    (h : lookupLast "type" m = some (Json.str "tablecell")) :
    nodeFromJson (Json.obj m) = tablecellFromObj m := by
  rw [nodeFromJson, h]
  rfl

theorem nodeFromJson_tag_page_break {m : List (String × Json)}
    (h : lookupLast "type" m = some (Json.str "page-break")) :
    nodeFromJson (Json.obj m) = pageBreakFromObj m := by
  rw [nodeFromJson, h]
  rfl

theorem nodeFromJson_tag_ai_embedding {m : List (String × Json)}
    (h : lookupLast "type" m = some (Json.str "ai-embedding")) :
    nodeFromJson (Json.obj m) = aiEmbeddingFromObj m := by
  rw [nodeFromJson, h]
  rfl

theorem nodeFromJson_tag_voice_input {m : List (String × Json)}
    (h : lookupLast "type" m = some (Json.str "voice-input")) :
    nodeFromJson (Json.obj m) = voiceInputFromObj m := by
  rw [nodeFromJson, h]
  rfl

theorem nodeFromJson_tag_chat_message {m : List (String × Json)}
    (h : lookupLast "type" m = some (Json.str "chat-message")) :
    nodeFromJson (Json.obj m) = chatMessageFromObj m := by
  rw [nodeFromJson, h]
  rfl

theorem nodeFromJson_tag_chat_session {m : List (String × Json)}
    (h : lookupLast "type" m = some (Json.str "chat-session")) :
    nodeFromJson (Json.obj m) = chatSessionFromObj m := by
  rw [nodeFromJson, h]
  rfl

theorem nodeFromJson_tag_mention {m : List (String × Json)}
    (h : lookupLast "type" m = some (Json.str "mention")) :
    nodeFromJson (Json.obj m) = mentionFromObj m := by
  rw [nodeFromJson, h]
  rfl


theorem paragraphFromObj_eval {m : List (String × Json)} {cs : List Json}
    (h : lookupLast "children" m = some (Json.arr cs)) :
    paragraphFromObj m
      = match nodesFromJson cs with
        | some children =>
          match defU32 (lookupLast "textFormat" m), defStr (lookupLast "textStyle" m),
              baseFromFields false m with
          | some tf, some ts, some b => some (LexicalNode.paragraph children tf ts b)
          | _, _, _ => none
        | none => none := by
  rw [paragraphFromObj, h]

theorem headingFromObj_eval {m : List (String × Json)} {cs : List Json}
    (h : lookupLast "children" m = some (Json.arr cs)) :
    headingFromObj m
      = match nodesFromJson cs with
        | some children =>
          match (match lookupLast "tag" m with
              | some x => asHeadingTag x
              | none => none), baseFromFields false m with
          | some tag, some b => some (LexicalNode.heading tag children b)
          | _, _ => none
        | none => none := by
  rw [headingFromObj, h]

theorem listFromObj_eval {m : List (String × Json)} {cs : List Json}
    (h : lookupLast "children" m = some (Json.arr cs)) :
    listFromObj m
      = match nodesFromJson cs with
        | some children =>
          match (match lookupLast "listType" m with
              | some x => asListType x
              | none => none), asOptU32Field (lookupLast "start" m),
              baseFromFields false m with
          | some lt, some st, some b => some (LexicalNode.list lt st children b)
          | _, _, _ => none
        | none => none := by
  rw [listFromObj, h]

theorem listitemFromObj_eval {m : List (String × Json)} {cs : List Json}
    (h : lookupLast "children" m = some (Json.arr cs)) :
    listitemFromObj m
      = match nodesFromJson cs with
        | some children =>
          match baseFromFields false m with
          | some b => some (LexicalNode.listitem children b)
          | none => none
        | none => none := by
  rw [listitemFromObj, h]

theorem quoteFromObj_eval {m : List (String × Json)} {cs : List Json}
    (h : lookupLast "children" m = some (Json.arr cs)) :
    quoteFromObj m
      = match nodesFromJson cs with
        | some children =>
          match baseFromFields false m with
          | some b => some (LexicalNode.quote children b)
          | none => none
        | none => none := by
  rw [quoteFromObj, h]

theorem codeFromObj_eval_arr {m : List (String × Json)} {cs : List Json}
    (h : lookupLast "children" m = some (Json.arr cs)) :
    codeFromObj m
      = match asOptStrField (lookupLast "text" m), asOptStrField (lookupLast "language" m),
          reqU32 (lookupLast "format" m), baseFromFields true m with
        | some tx, some lang, some fmt, some b =>
          (match nodesFromJson cs with
          | some children => some (LexicalNode.code tx lang (some children) fmt b)
          | none => none)
        | _, _, _, _ => none := by
  rw [codeFromObj, h]

theorem codeFromObj_eval_none {m : List (String × Json)}
    (h : lookupLast "children" m = none) :
    codeFromObj m
      = match asOptStrField (lookupLast "text" m), asOptStrField (lookupLast "language" m),
          reqU32 (lookupLast "format" m), baseFromFields true m with
        | some tx, some lang, some fmt, some b => some (LexicalNode.code tx lang none fmt b)
        | _, _, _, _ => none := by
  rw [codeFromObj, h]

theorem linkFromObj_eval {m : List (String × Json)} {cs : List Json}
    (h : lookupLast "children" m = some (Json.arr cs)) :
    linkFromObj m
      = match nodesFromJson cs with
        | some children =>
          match reqStr (lookupLast "url" m), asOptStrField (lookupLast "rel" m),
              asOptStrField (lookupLast "target" m), baseFromFields false m with
          | some url, some rel, some tgt, some b =>
            some (LexicalNode.link url rel tgt children b)
          | _, _, _, _ => none
        | none => none := by
  rw [linkFromObj, h]

theorem autolinkFromObj_eval {m : List (String × Json)} {cs : List Json}
    (h : lookupLast "children" m = some (Json.arr cs)) :
    autolinkFromObj m
      = match nodesFromJson cs with
        | some children =>
          match reqStr (lookupLast "url" m), baseFromFields false m with
          | some url, some b => some (LexicalNode.autolink url children b)
          | _, _ => none
        | none => none := by
  rw [autolinkFromObj, h]

theorem tableFromObj_eval {m : List (String × Json)} {cs : List Json}
    (h : lookupLast "children" m = some (Json.arr cs)) :
    tableFromObj m
      = match nodesFromJson cs with
        | some children =>
          match baseFromFields false m with
          | some b => some (LexicalNode.table children b)
          | none => none
        | none => none := by
  rw [tableFromObj, h]

theorem tablerowFromObj_eval {m : List (String × Json)} {cs : List Json}
    (h : lookupLast "children" m = some (Json.arr cs)) :
    tablerowFromObj m
      = match nodesFromJson cs with
        | some children =>
          match baseFromFields false m with
          | some b => some (LexicalNode.tablerow children b)
          | none => none
        | none => none := by
  rw [tablerowFromObj, h]

theorem tablecellFromObj_eval {m : List (String × Json)} {cs : List Json}
    (h : lookupLast "children" m = some (Json.arr cs)) :
    tablecellFromObj m
      = match nodesFromJson cs with
        | some children =>
          match reqU32 (lookupLast "headerState" m), reqU32 (lookupLast "colSpan" m),
              reqU32 (lookupLast "rowSpan" m), baseFromFields false m with
          | some hs, some csp, some rs, some b =>
            some (LexicalNode.tablecell children hs csp rs b)
          | _, _, _, _ => none
        | none => none := by
  rw [tablecellFromObj, h]

theorem chatSessionFromObj_eval {m : List (String × Json)} {js : List Json}
    (h : lookupLast "messages" m = some (Json.arr js)) :
    chatSessionFromObj m
      = match reqStr (lookupLast "sessionId" m), msgsFromJson js,
          baseFromFields false m with
        | some sid, some msgs, some b => some (LexicalNode.chatSession sid msgs b)
        | _, _, _ => none := by
  rw [chatSessionFromObj, h]

theorem msg_rt (msg : ChatSessionMessage) :
    ChatSessionMessage.fromJson (ChatSessionMessage.toJson msg) = some msg := by
  obtain ⟨i, snd, c, ts⟩ := msg
  cases snd <;> rfl

theorem msgs_rt (msgs : List ChatSessionMessage) :
    msgsFromJson (msgs.map ChatSessionMessage.toJson) = some msgs := by
  induction msgs with
  | nil => rfl
  | cons msg rest ihm => rw [List.map_cons, msgsFromJson, msg_rt, ihm]


set_option maxHeartbeats 3200000 in
mutual

theorem node_rt : ∀ (n : LexicalNode), formatSafeNode n = true →
    nodeFromJson (LexicalNode.toJson n) = some n
  | LexicalNode.text tx fmt dt md st b, h => by
    obtain ⟨v, dir, fm, ind⟩ := b
    have hfm : fm = none := Option.isNone_iff_eq_none.mp h
    subst hfm
    rcases dir with _ | d <;> rcases ind with _ | i <;>
      first
        | (cases d <;> (rw [LexicalNode.toJson, nodeFromJson_tag_text (by rfl)]; rfl))
        | (rw [LexicalNode.toJson, nodeFromJson_tag_text (by rfl)]; rfl)
  | LexicalNode.paragraph children tf ts b, h => by
    have ih := nodes_rt children h
    obtain ⟨v, dir, fm, ind⟩ := b
    rcases dir with _ | d <;> rcases ind with _ | i <;> rcases fm with _ | fs <;>
      first
        | (cases d <;> (rw [LexicalNode.toJson, nodeFromJson_tag_paragraph (by rfl), paragraphFromObj_eval (by rfl), ih]; rfl))
        | (rw [LexicalNode.toJson, nodeFromJson_tag_paragraph (by rfl), paragraphFromObj_eval (by rfl), ih]; rfl)
  | LexicalNode.heading tag children b, h => by
    have ih := nodes_rt children h
    obtain ⟨v, dir, fm, ind⟩ := b
    cases tag <;> rcases dir with _ | d <;> rcases ind with _ | i <;> rcases fm with _ | fs <;>
      first
        | (cases d <;> (rw [LexicalNode.toJson, nodeFromJson_tag_heading (by rfl), headingFromObj_eval (by rfl), ih]; rfl))
        | (rw [LexicalNode.toJson, nodeFromJson_tag_heading (by rfl), headingFromObj_eval (by rfl), ih]; rfl)
  | LexicalNode.list lt st children b, h => by
    have ih := nodes_rt children h
    obtain ⟨v, dir, fm, ind⟩ := b
    cases lt <;> rcases dir with _ | d <;> rcases ind with _ | i <;> rcases fm with _ | fs <;> rcases st with _ | sn <;>
      first
        | (cases d <;> (rw [LexicalNode.toJson, nodeFromJson_tag_list (by rfl), listFromObj_eval (by rfl), ih]; rfl))
        | (rw [LexicalNode.toJson, nodeFromJson_tag_list (by rfl), listFromObj_eval (by rfl), ih]; rfl)
  | LexicalNode.listitem children b, h => by
    have ih := nodes_rt children h
    obtain ⟨v, dir, fm, ind⟩ := b
    rcases dir with _ | d <;> rcases ind with _ | i <;> rcases fm with _ | fs <;>
      first
        | (cases d <;> (rw [LexicalNode.toJson, nodeFromJson_tag_listitem (by rfl), listitemFromObj_eval (by rfl), ih]; rfl))
        | (rw [LexicalNode.toJson, nodeFromJson_tag_listitem (by rfl), listitemFromObj_eval (by rfl), ih]; rfl)
  | LexicalNode.quote children b, h => by
    have ih := nodes_rt children h
    obtain ⟨v, dir, fm, ind⟩ := b
    rcases dir with _ | d <;> rcases ind with _ | i <;> rcases fm with _ | fs <;>
      first
        | (cases d <;> (rw [LexicalNode.toJson, nodeFromJson_tag_quote (by rfl), quoteFromObj_eval (by rfl), ih]; rfl))
        | (rw [LexicalNode.toJson, nodeFromJson_tag_quote (by rfl), quoteFromObj_eval (by rfl), ih]; rfl)
  | LexicalNode.table children b, h => by
    have ih := nodes_rt children h
    obtain ⟨v, dir, fm, ind⟩ := b
    rcases dir with _ | d <;> rcases ind with _ | i <;> rcases fm with _ | fs <;>
      first
        | (cases d <;> (rw [LexicalNode.toJson, nodeFromJson_tag_table (by rfl), tableFromObj_eval (by rfl), ih]; rfl))
        | (rw [LexicalNode.toJson, nodeFromJson_tag_table (by rfl), tableFromObj_eval (by rfl), ih]; rfl)
  | LexicalNode.tablerow children b, h => by
    have ih := nodes_rt children h
    obtain ⟨v, dir, fm, ind⟩ := b
    rcases dir with _ | d <;> rcases ind with _ | i <;> rcases fm with _ | fs <;>
      first
        | (cases d <;> (rw [LexicalNode.toJson, nodeFromJson_tag_tablerow (by rfl), tablerowFromObj_eval (by rfl), ih]; rfl))
        | (rw [LexicalNode.toJson, nodeFromJson_tag_tablerow (by rfl), tablerowFromObj_eval (by rfl), ih]; rfl)
  | LexicalNode.code tx lang none fmt b, h => by
    obtain ⟨v, dir, fm, ind⟩ := b
    have h' : (fm.isNone && true) = true := h
    have hfm : fm = none := Option.isNone_iff_eq_none.mp (by simpa using h')
    subst hfm
    rcases dir with _ | d <;> rcases ind with _ | i <;> rcases tx with _ | s1 <;> rcases lang with _ | s2 <;>
      first
        | (cases d <;> (rw [LexicalNode.toJson, nodeFromJson_tag_code (by rfl), codeFromObj_eval_none (by rfl)]; rfl))
        | (rw [LexicalNode.toJson, nodeFromJson_tag_code (by rfl), codeFromObj_eval_none (by rfl)]; rfl)
  | LexicalNode.code tx lang (some cs) fmt b, h => by
    obtain ⟨v, dir, fm, ind⟩ := b
    have h' : (fm.isNone && formatSafeNodes cs) = true := h
    rw [Bool.and_eq_true] at h'
    have hfm : fm = none := Option.isNone_iff_eq_none.mp h'.1
    have ih := nodes_rt cs h'.2
    subst hfm
    rcases dir with _ | d <;> rcases ind with _ | i <;> rcases tx with _ | s1 <;> rcases lang with _ | s2 <;>
      first
        | (cases d <;> (rw [LexicalNode.toJson, nodeFromJson_tag_code (by rfl), codeFromObj_eval_arr (by rfl), ih]; rfl))
        | (rw [LexicalNode.toJson, nodeFromJson_tag_code (by rfl), codeFromObj_eval_arr (by rfl), ih]; rfl)
  | LexicalNode.link url rel tgt children b, h => by
    have ih := nodes_rt children h
    obtain ⟨v, dir, fm, ind⟩ := b
    rcases dir with _ | d <;> rcases ind with _ | i <;> rcases fm with _ | fs <;> rcases rel with _ | s1 <;> rcases tgt with _ | s2 <;>
      first
        | (cases d <;> (rw [LexicalNode.toJson, nodeFromJson_tag_link (by rfl), linkFromObj_eval (by rfl), ih]; rfl))
        | (rw [LexicalNode.toJson, nodeFromJson_tag_link (by rfl), linkFromObj_eval (by rfl), ih]; rfl)
  | LexicalNode.autolink url children b, h => by
    have ih := nodes_rt children h
    obtain ⟨v, dir, fm, ind⟩ := b
    rcases dir with _ | d <;> rcases ind with _ | i <;> rcases fm with _ | fs <;>
      first
        | (cases d <;> (rw [LexicalNode.toJson, nodeFromJson_tag_autolink (by rfl), autolinkFromObj_eval (by rfl), ih]; rfl))
        | (rw [LexicalNode.toJson, nodeFromJson_tag_autolink (by rfl), autolinkFromObj_eval (by rfl), ih]; rfl)
  | LexicalNode.hashtag tx fmt b, h => by
    obtain ⟨v, dir, fm, ind⟩ := b
    have hfm : fm = none := Option.isNone_iff_eq_none.mp h
    subst hfm
    rcases dir with _ | d <;> rcases ind with _ | i <;>
      first
        | (cases d <;> (rw [LexicalNode.toJson, nodeFromJson_tag_hashtag (by rfl)]; rfl))
        | (rw [LexicalNode.toJson, nodeFromJson_tag_hashtag (by rfl)]; rfl)
  | LexicalNode.tablecell children hs csp rs b, h => by
    have ih := nodes_rt children h
    obtain ⟨v, dir, fm, ind⟩ := b
    rcases dir with _ | d <;> rcases ind with _ | i <;> rcases fm with _ | fs <;>
      first
        | (cases d <;> (rw [LexicalNode.toJson, nodeFromJson_tag_tablecell (by rfl), tablecellFromObj_eval (by rfl), ih]; rfl))
        | (rw [LexicalNode.toJson, nodeFromJson_tag_tablecell (by rfl), tablecellFromObj_eval (by rfl), ih]; rfl)
  | LexicalNode.pageBreak b, h => by
    obtain ⟨v, dir, fm, ind⟩ := b
    rcases dir with _ | d <;> rcases ind with _ | i <;> rcases fm with _ | fs <;>
      first
        | (cases d <;> (rw [LexicalNode.toJson, nodeFromJson_tag_page_break (by rfl)]; rfl))
        | (rw [LexicalNode.toJson, nodeFromJson_tag_page_break (by rfl)]; rfl)
  | LexicalNode.aiEmbedding c loading b, h => by
    obtain ⟨v, dir, fm, ind⟩ := b
    rcases dir with _ | d <;> rcases ind with _ | i <;> rcases fm with _ | fs <;>
      first
        | (cases d <;> (rw [LexicalNode.toJson, nodeFromJson_tag_ai_embedding (by rfl)]; rfl))
        | (rw [LexicalNode.toJson, nodeFromJson_tag_ai_embedding (by rfl)]; rfl)
  | LexicalNode.voiceInput c b, h => by
    obtain ⟨v, dir, fm, ind⟩ := b
    rcases dir with _ | d <;> rcases ind with _ | i <;> rcases fm with _ | fs <;>
      first
        | (cases d <;> (rw [LexicalNode.toJson, nodeFromJson_tag_voice_input (by rfl)]; rfl))
        | (rw [LexicalNode.toJson, nodeFromJson_tag_voice_input (by rfl)]; rfl)
  | LexicalNode.chatMessage snd c ts b, h => by
    obtain ⟨v, dir, fm, ind⟩ := b
    cases snd <;> rcases dir with _ | d <;> rcases ind with _ | i <;> rcases fm with _ | fs <;>
      first
        | (cases d <;> (rw [LexicalNode.toJson, nodeFromJson_tag_chat_message (by rfl)]; rfl))
        | (rw [LexicalNode.toJson, nodeFromJson_tag_chat_message (by rfl)]; rfl)
  | LexicalNode.chatSession sid msgs b, h => by
    obtain ⟨v, dir, fm, ind⟩ := b
    rcases dir with _ | d <;> rcases ind with _ | i <;> rcases fm with _ | fs <;>
      first
        | (cases d <;> (rw [LexicalNode.toJson, nodeFromJson_tag_chat_session (by rfl), chatSessionFromObj_eval (by rfl), msgs_rt]; rfl))
        | (rw [LexicalNode.toJson, nodeFromJson_tag_chat_session (by rfl), chatSessionFromObj_eval (by rfl), msgs_rt]; rfl)
  | LexicalNode.mention mn tx fmt b, h => by
    obtain ⟨v, dir, fm, ind⟩ := b
    have hfm : fm = none := Option.isNone_iff_eq_none.mp h
    subst hfm
    rcases dir with _ | d <;> rcases ind with _ | i <;>
      first
        | (cases d <;> (rw [LexicalNode.toJson, nodeFromJson_tag_mention (by rfl)]; rfl))
        | (rw [LexicalNode.toJson, nodeFromJson_tag_mention (by rfl)]; rfl)
termination_by n _ => sizeOf n
decreasing_by
  all_goals simp_wf
  all_goals omega

theorem nodes_rt : ∀ (l : List LexicalNode), formatSafeNodes l = true →
    nodesFromJson (nodesToJson l) = some l
  | [], _ => by rw [show nodesToJson [] = [] from rfl, nodesFromJson]
  | n :: rest, h => by
    have h' : (formatSafeNode n && formatSafeNodes rest) = true := h
    rw [Bool.and_eq_true] at h'
    have ih1 : nodeFromJson (Json.obj (nodeToFields n)) = some n := node_rt n h'.1
    have ih2 := nodes_rt rest h'.2
    rw [show nodesToJson (n :: rest) = Json.obj (nodeToFields n) :: nodesToJson rest from rfl,
      nodesFromJson, ih1, ih2]
termination_by l _ => sizeOf l
decreasing_by
  all_goals simp_wf
  all_goals omega

end


theorem rootFromJson_eval {m : List (String × Json)} {t : String} {cs : List Json}
    (h1 : reqStr (lookupLast "type" m) = some t)
    (h2 : lookupLast "children" m = some (Json.arr cs)) :
    RootNode.fromJson (Json.obj m)
      = match nodesFromJson cs with
        | some children =>
          (match baseFromFields false m with
          | some b => some { node_type := t, children := children, base := b }
          | none => none)
        | none => none := by
  rw [RootNode.fromJson, h1, h2]

theorem noteFromJson_eval {m lm : List (String × Json)} {nid : Option String} {rj : Json}
    (h1 : asOptStrField (lookupLast "noteId" m) = some nid)
    (h2 : lookupLast "lexicalState" m = some (Json.obj lm))
    (h3 : lookupLast "root" lm = some rj) :
    Note.fromJson (Json.obj m)
      = match RootNode.fromJson rj with
        | some root => some { note_id := nid, lexical_state := { root := root } }
        | none => none := by
  rw [Note.fromJson, h1, h2]
  dsimp only
  rw [h3]

theorem root_rt (r : RootNode) (h : formatSafeNodes r.children = true) :
    RootNode.fromJson (RootNode.toJson r) = some r := by
  obtain ⟨t, children, b⟩ := r
  have ih := nodes_rt children h
  obtain ⟨v, dir, fm, ind⟩ := b
  rcases dir with _ | d <;> rcases fm with _ | fs <;> rcases ind with _ | i <;>
    first
      | (cases d <;> (rw [RootNode.toJson, rootFromJson_eval (by rfl) (by rfl), ih]; rfl))
      | (rw [RootNode.toJson, rootFromJson_eval (by rfl) (by rfl), ih]; rfl)

theorem note_rt (note : Note) (h : note.formatSafe = true) :
    Note.fromJson (Note.toJson note) = some note := by
  obtain ⟨nid, ⟨root⟩⟩ := note
  have hr : RootNode.fromJson (RootNode.toJson root) = some root := root_rt root h
  rcases nid with _ | s <;>
    (rw [Note.toJson, noteFromJson_eval (by rfl) (by rfl) (by rfl), hr])


theorem get_brief_eq (note : Note) :
    note.get_brief = briefsFrom 0 note.lexical_state.root.children := by
  have main : ∀ (l : List LexicalNode) (k : Nat) (acc : List BriefNode),
      List.foldl (fun acc p => Note.collect_brief_from_node p.2 acc p.1) acc (List.enumFrom k l)
        = acc ++ briefsFrom k l := by
    intro l
    induction l with
    | nil => intro k acc; simp [briefsFrom]
    | cons n rest ih =>
      intro k acc
      rw [show List.enumFrom k (n :: rest) = (k, n) :: List.enumFrom (k + 1) rest from rfl,
        List.foldl_cons, ih]
      rw [briefsFrom]
      unfold Note.collect_brief_from_node
      dsimp only
      by_cases hc : strTrim (briefContent n).2 ≠ ""
      · rw [if_pos hc, if_pos hc, List.append_assoc]
      · rw [if_neg hc, if_neg hc]
        rfl
  unfold Note.get_brief
  rw [show note.lexical_state.root.children.enum
      = List.enumFrom 0 note.lexical_state.root.children from rfl, main]
  rfl

theorem briefsFrom_mem_bounds :
    ∀ (l : List LexicalNode) (k : Nat) (b : BriefNode),
      b ∈ briefsFrom k l → k ≤ b.id ∧ b.id < k + l.length := by
  intro l
  induction l with
  | nil => intro k b hb; simp [briefsFrom] at hb
  | cons n rest ih =>
    intro k b hb
    rw [briefsFrom] at hb
    rcases List.mem_append.mp hb with h1 | h2
    · split at h1
      · have hb1 : b = { id := k, node_type := (briefContent n).1, content := (briefContent n).2 } :=
          List.mem_singleton.mp h1
        subst hb1
        refine ⟨Nat.le_refl k, ?_⟩
        simp [List.length_cons]
      · simp at h1
    · have := ih (k + 1) b h2
      simp only [List.length_cons]
      omega

theorem briefsFrom_pairwise :
    ∀ (l : List LexicalNode) (k : Nat),
      (briefsFrom k l).Pairwise (fun x y => x.id < y.id) := by
  intro l
  induction l with
  | nil => intro k; simp [briefsFrom]
  | cons n rest ih =>
    intro k
    rw [briefsFrom]
    apply List.pairwise_append.mpr
    refine ⟨?_, ih (k + 1), ?_⟩
    · split
      · simp
      · simp
    · intro x hx y hy
      have hyb := briefsFrom_mem_bounds rest (k + 1) y hy
      split at hx
      · have hx1 : x = { id := k, node_type := (briefContent n).1, content := (briefContent n).2 } :=
          List.mem_singleton.mp hx
        subst hx1
        dsimp only
        omega
      · simp at hx

theorem briefsFrom_content :
    ∀ (l : List LexicalNode) (k : Nat) (b : BriefNode),
      b ∈ briefsFrom k l → strTrim b.content ≠ "" := by
  intro l
  induction l with
  | nil => intro k b hb; simp [briefsFrom] at hb
  | cons n rest ih =>
    intro k b hb
    rw [briefsFrom] at hb
    rcases List.mem_append.mp hb with h1 | h2
    · split at h1
      · have hb1 : b = { id := k, node_type := (briefContent n).1, content := (briefContent n).2 } :=
          List.mem_singleton.mp h1
        subst hb1
        assumption
      · simp at h1
    · exact ih (k + 1) b h2

theorem briefsFrom_skip :
    ∀ (l : List LexicalNode) (k j : Nat) (n : LexicalNode),
      l.get? j = some n → strTrim (briefContent n).2 = "" →
      ∀ b ∈ briefsFrom k l, b.id ≠ k + j := by
  intro l
  induction l with
  | nil => intro k j n hg; simp at hg
  | cons m rest ih =>
    intro k j n hg hempty b hb
    rw [briefsFrom] at hb
    cases j with
    | zero =>
      have hn : m = n := by simpa using hg
      subst hn
      rw [if_neg (by simpa using hempty)] at hb
      have := briefsFrom_mem_bounds rest (k + 1) b (by simpa using hb)
      omega
    | succ j' =>
      have hg' : rest.get? j' = some n := by simpa using hg
      rcases List.mem_append.mp hb with h1 | h2
      · split at h1
        · have hb1 : b = { id := k, node_type := (briefContent m).1, content := (briefContent m).2 } :=
            List.mem_singleton.mp h1
          subst hb1
          dsimp only
          omega
        · simp at h1
      · have := ih (k + 1) j' n hg' hempty b h2
        omega


/-- C1: for every raw reply the parser strips a leading and/or trailing
run of three backticks (trim_start_matches and trim_end_matches remove
every leading, resp. trailing, occurrence of the marker), re-trims and
classifies; the specification's code-fence example parses to the reply
with content hi. A language tag after the opening fence is NOT removed;
see the counterexample. -/
theorem c1_code_fence_stripping :
    (∀ l : List Char, ∃ k, l = List.replicate (3 * k) tick ++ trimStartTicks l
        ∧ startsTicks (trimStartTicks l) = false)
    ∧ (∀ l : List Char, ∃ k, l = trimEndTicks l ++ List.replicate (3 * k) tick
        ∧ endsTicks (trimEndTicks l) = false)
    ∧ ChatAction.try_from_reply " \x60\x60\x60\x7b\"action\":\"reply\",\"content\":\"hi\"\x7d\x60\x60\x60 "
        = Except.ok (ChatAction.reply { action := "reply", content := "hi" }) :=
  ⟨trimStartTicks_spec, trimEndTicks_spec, rfl⟩

/-- C1 counterexample: a code fence with a language tag is not stripped
of the tag; the whole fenced body, tag included, is classified as prose,
so the result is not the parsed reply with content hi. -/
theorem c1_language_tag_counterexample :
    ChatAction.try_from_reply "\x60\x60\x60json\n\x7b\"action\":\"reply\",\"content\":\"hi\"\x7d\n\x60\x60\x60"
        = Except.ok (ChatAction.reply
            { action := "reply", content := "json\n\x7b\"action\":\"reply\",\"content\":\"hi\"\x7d" })
    ∧ ChatAction.try_from_reply "\x60\x60\x60json\n\x7b\"action\":\"reply\",\"content\":\"hi\"\x7d\n\x60\x60\x60"
        ≠ Except.ok (ChatAction.reply { action := "reply", content := "hi" }) := by
  refine ⟨rfl, fun hcontra => ?_⟩
  have h2 : ({ action := "reply", content := "json\n\x7b\"action\":\"reply\",\"content\":\"hi\"\x7d" } : Reply)
      = { action := "reply", content := "hi" } :=
    ChatAction.reply.inj (Except.ok.inj ((rfl :
      ChatAction.try_from_reply "\x60\x60\x60json\n\x7b\"action\":\"reply\",\"content\":\"hi\"\x7d\n\x60\x60\x60"
        = Except.ok (ChatAction.reply
            { action := "reply", content := "json\n\x7b\"action\":\"reply\",\"content\":\"hi\"\x7d" })).symm.trans hcontra))
  exact absurd (congrArg Reply.content h2) (by decide)


/-- Witness for C2 at the specification's delete_node example. -/
theorem c2_unsupported_action_type_witness :
    ChatAction.try_from_reply "\x7b\"action\":\"delete_node\"\x7d"
      = Except.error (ActionError.unsupportedActionType (Json.str "delete_node")) :=
  c2_unsupported_action_type "\x7b\"action\":\"delete_node\"\x7d"
    (Json.obj [("action", Json.str "delete_node")]) (Json.str "delete_node")
    rfl rfl (by decide) (by decide) (by decide)

/-- Witness for C3 at the specification's actionless object example. -/
theorem c3_actionless_json_is_reply_witness :
    ChatAction.try_from_reply "\x7b\"foo\":\"bar\"\x7d"
      = Except.ok (ChatAction.reply
          { action := "reply", content := "\x7b\"foo\":\"bar\"\x7d" }) :=
  c3_actionless_json_is_reply "\x7b\"foo\":\"bar\"\x7d"
    (Json.obj [("foo", Json.str "bar")]) rfl rfl

/-- Witness for C9 at the specification's malformed JSON example. -/
theorem c9_parse_totality_witness :
    ChatAction.try_from_reply "\x7bnot json"
      = Except.error ActionError.malformedActionJson :=
  (c9_parse_totality "\x7bnot json").1 rfl rfl

/-- Witness for C10 at the specification's prose example. -/
theorem c10_reply_discriminator_witness :
    (Reply.mk "reply" "Hello there").action = "reply" :=
  c10_reply_discriminator "Hello there" (Reply.mk "reply" "Hello there") rfl


/-- C4 (amended): every brief entry's id is a valid index into the top
level children, ids are strictly increasing across the output, every
entry's content is non-blank after trimming, and a child whose computed
brief content trims to empty contributes no entry. The claim's phrasing
in terms of recursively extracted text fails on the code: see the
counterexample. -/
theorem c4_brief_projection_invariants (note : Note) :
    (∀ b ∈ note.get_brief, b.id < note.lexical_state.root.children.length)
    ∧ (note.get_brief.Pairwise (fun x y => x.id < y.id))
    ∧ (∀ b ∈ note.get_brief, strTrim b.content ≠ "")
    ∧ (∀ (i : Nat) (n : LexicalNode), note.lexical_state.root.children.get? i = some n →
        strTrim (briefContent n).2 = "" → ∀ b ∈ note.get_brief, b.id ≠ i) := by
  rw [get_brief_eq]
  refine ⟨?_, briefsFrom_pairwise _ 0, ?_, ?_⟩
  · intro b hb
    have := briefsFrom_mem_bounds _ 0 b hb
    omega
  · intro b hb
    exact briefsFrom_content _ 0 b hb
  · intro i n hg he b hb
    have := briefsFrom_skip _ 0 i n hg he b hb
    omega

/-- Witness for C4 on the page break note. -/
theorem c4_brief_projection_witness :
    (Note.get_brief examplePageBreakNote).Pairwise (fun x y => x.id < y.id)
    ∧ ∀ b ∈ Note.get_brief examplePageBreakNote, strTrim b.content ≠ "" :=
  ⟨(c4_brief_projection_invariants examplePageBreakNote).2.1,
   (c4_brief_projection_invariants examplePageBreakNote).2.2.1⟩

/-- C4 counterexample: a page break's recursively extracted text trims to
empty, yet it contributes an entry with fixed content. -/
theorem c4_extracted_text_counterexample :
    strTrim (extractTextFromNodes [LexicalNode.pageBreak exampleBase]) = ""
    ∧ Note.get_brief examplePageBreakNote
        = [{ id := 0, node_type := "page-break", content := "---" }] :=
  ⟨rfl, rfl⟩

/-- C5: projecting the document with children text empty, paragraph hi,
page break yields exactly the paragraph entry with id one and the page
break entry with id two, for every choice of the remaining fields. -/
theorem c5_projection_example (b1 b2 b3 b4 b5 : BaseNodeProperties) (f1 f2 d1 d2 tf : Nat)
    (m1 m2 s1 s2 ts : String) (nid : Option String) (rt : String) :
    Note.get_brief
      { note_id := nid,
        lexical_state := { root :=
          { node_type := rt,
            children := [LexicalNode.text "" f1 d1 m1 s1 b1,
              LexicalNode.paragraph [LexicalNode.text "hi" f2 d2 m2 s2 b2] tf ts b3,
              LexicalNode.pageBreak b4],
            base := b5 } } }
      = [{ id := 1, node_type := "paragraph", content := "hi" },
         { id := 2, node_type := "page-break", content := "---" }] := rfl

/-- C6: under the exclusivity invariant, a code node's projected content
and its extracted-text contribution both equal the inline text when
present, else the recursive extraction of its children when present, else
the empty string. -/
theorem c6_code_content (t lang : Option String) (ch : Option (List LexicalNode))
    (fmt : Nat) (b : BaseNodeProperties)
    (h : ¬(t.isSome = true ∧ ch.isSome = true)) :
    (briefContent (LexicalNode.code t lang ch fmt b)).2
        = (match t with
            | some s => s
            | none =>
              match ch with
              | some cs => extractTextFromNodes cs
              | none => "")
    ∧ extractTextFromNode (LexicalNode.code t lang ch fmt b)
        = (match t with
            | some s => s
            | none =>
              match ch with
              | some cs => extractTextFromNodes cs
              | none => "") := by
  rcases t with _ | s
  · rcases ch with _ | cs
    · exact ⟨rfl, rfl⟩
    · exact ⟨rfl, rfl⟩
  · rcases ch with _ | cs
    · refine ⟨rfl, ?_⟩
      show s ++ "" = s
      simp
    · exact absurd ⟨rfl, rfl⟩ h

/-- Witness for C6 at an inline code node. -/
theorem c6_code_content_witness :
    (briefContent (LexicalNode.code (some "print x") none none 0 exampleBase)).2 = "print x"
    ∧ extractTextFromNode (LexicalNode.code (some "print x") none none 0 exampleBase)
        = "print x" := by
  have h := c6_code_content (some "print x") none none 0 exampleBase (by simp)
  exact ⟨h.1, h.2⟩

/-- C7 (amended): serialization then deserialization is the identity on
every Note in which no text, code, hashtag or mention node carries the
optional base format (whose wire key collides with those variants' own
format field); the collision case fails, see the counterexample. -/
theorem c7_roundtrip (note : Note) (h : note.formatSafe = true) :
    Note.fromJson (Note.toJson note) = some note :=
  note_rt note h

/-- Witness for C7 on a small collision free note. -/
theorem c7_roundtrip_witness :
    Note.formatSafe exampleNote = true
    ∧ Note.fromJson (Note.toJson exampleNote) = some exampleNote :=
  ⟨rfl, c7_roundtrip exampleNote rfl⟩

/-- C7 counterexample: a note holding a text node with base format
present does not round trip; the duplicate format key makes
deserialization fail outright. -/
theorem c7_format_collision_counterexample :
    Note.fromJson (Note.toJson collidingNote) = none
    ∧ Note.fromJson (Note.toJson collidingNote) ≠ some collidingNote := by
  have h1 : Note.fromJson (Note.toJson collidingNote) = none := by
    rw [Note.toJson, noteFromJson_eval (by rfl) (by rfl) (by rfl), RootNode.toJson,
      rootFromJson_eval (by rfl) (by rfl)]
    rw [show nodesToJson collidingNote.lexical_state.root.children
        = [Json.obj (nodeToFields (LexicalNode.text "hi" 0 0 "" ""
            { version := 1, direction := none, format := some "x", indent := none }))] from rfl]
    rw [nodesFromJson, nodeFromJson_tag_text (by rfl)]
    rfl
  refine ⟨h1, ?_⟩
  rw [h1]
  simp

/-- C8 (amended): for the optional fields annotated to be skipped when
absent (link rel and target, code text, language and children, base
direction, format and indent) an absent value never produces a key in the
serialized output; the list node's start field and the note's noteId
field are not annotated and serialize as explicit null when absent. -/
theorem c8_optional_field_absence :
    (∀ b : BaseNodeProperties,
      (b.direction = none → hasKey "direction" (baseFields b) = false)
      ∧ (b.format = none → hasKey "format" (baseFields b) = false)
      ∧ (b.indent = none → hasKey "indent" (baseFields b) = false))
    ∧ (∀ (url : String) (rel tgt : Option String) (children : List LexicalNode)
        (b : BaseNodeProperties),
      (rel = none → hasKey "rel" (nodeToFields (LexicalNode.link url rel tgt children b)) = false)
      ∧ (tgt = none →
          hasKey "target" (nodeToFields (LexicalNode.link url rel tgt children b)) = false))
    ∧ (∀ (tx lang : Option String) (ch : Option (List LexicalNode)) (fmt : Nat)
        (b : BaseNodeProperties),
      (tx = none → hasKey "text" (nodeToFields (LexicalNode.code tx lang ch fmt b)) = false)
      ∧ (lang = none →
          hasKey "language" (nodeToFields (LexicalNode.code tx lang ch fmt b)) = false)
      ∧ (ch = none →
          hasKey "children" (nodeToFields (LexicalNode.code tx lang ch fmt b)) = false))
    ∧ (∀ (lt : ListType) (st : Option Nat) (children : List LexicalNode)
        (b : BaseNodeProperties),
      hasKey "start" (nodeToFields (LexicalNode.list lt st children b)) = true
      ∧ (st = none → lookupLast "start" (nodeToFields (LexicalNode.list lt st children b))
          = some Json.null))
    ∧ (∀ note : Note, note.note_id = none →
        lookupLast "noteId" (Note.toJson note).fieldsOf = some Json.null) := by
  refine ⟨?_, ?_, ?_, ?_, ?_⟩
  · intro b
    obtain ⟨v, dir, fm, ind⟩ := b
    refine ⟨?_, ?_, ?_⟩ <;> intro h <;>
      (first
        | (cases h; rcases fm with _ | x <;> rcases ind with _ | y <;> rfl)
        | (cases h; rcases dir with _ | x <;> rcases ind with _ | y <;> rfl)
        | (cases h; rcases dir with _ | x <;> rcases fm with _ | y <;> rfl))
  · intro url rel tgt children b
    obtain ⟨v, dir, fm, ind⟩ := b
    constructor <;> intro h <;> cases h <;>
      rcases dir with _ | x <;> rcases fm with _ | y <;> rcases ind with _ | z <;>
      first
        | (rcases tgt with _ | w <;> rfl)
        | (rcases rel with _ | w <;> rfl)
  · intro tx lang ch fmt b
    obtain ⟨v, dir, fm, ind⟩ := b
    refine ⟨?_, ?_, ?_⟩ <;> intro h <;> cases h <;>
      rcases dir with _ | x <;> rcases fm with _ | y <;> rcases ind with _ | z <;>
      first
        | (rcases lang with _ | w1 <;> rcases ch with _ | w2 <;> rfl)
        | (rcases tx with _ | w1 <;> rcases ch with _ | w2 <;> rfl)
        | (rcases tx with _ | w1 <;> rcases lang with _ | w2 <;> rfl)
  · intro lt st children b
    obtain ⟨v, dir, fm, ind⟩ := b
    constructor
    · rcases st with _ | sn <;>
        rcases dir with _ | x <;> rcases fm with _ | y <;> rcases ind with _ | z <;> rfl
    · intro h
      cases h
      rcases dir with _ | x <;> rcases fm with _ | y <;> rcases ind with _ | z <;> rfl
  · intro note h
    obtain ⟨nid, ls⟩ := note
    cases h
    rfl

/-- Witness for C8: a link without rel has no rel key, and a list without
start still has a start key. -/
theorem c8_optional_field_absence_witness :
    hasKey "rel" (nodeToFields (LexicalNode.link "u" none none [] exampleBase)) = false
    ∧ hasKey "start" (nodeToFields (LexicalNode.list ListType.bullet none [] exampleBase))
        = true :=
  ⟨(c8_optional_field_absence.2.1 "u" none none [] exampleBase).1 rfl,
   (c8_optional_field_absence.2.2.2.1 ListType.bullet none [] exampleBase).1⟩

/-- C8 counterexample: deserializing a list node object with no start key
and re-serializing injects an explicit start null key, so an absent
optional field does not remain absent. -/
theorem c8_list_start_counterexample :
    hasKey "start" (Json.fieldsOf listNodeJson) = false
    ∧ nodeFromJson listNodeJson
        = some (LexicalNode.list ListType.bullet none []
            { version := 1, direction := none, format := none, indent := none })
    ∧ lookupLast "start"
        (nodeToFields (LexicalNode.list ListType.bullet none []
          { version := 1, direction := none, format := none, indent := none }))
        = some Json.null := by
  refine ⟨rfl, ?_, rfl⟩
  rw [listNodeJson, nodeFromJson_tag_list (by rfl), listFromObj_eval (by rfl), nodesFromJson]
  rfl
